import Mathlib

/-!
Verification development for the news-scrapper repository: a shallow
embedding of its incremental crawl-and-deduplicate core (the Hiru News,
Lankadeepa, News First and ITN scrapers), together with theorems checking
the natural-language specification's claims against that embedding.

The Python sources embedded here are:
  src/scripts/hirunews/scrape_hirunews.py
  src/scripts/lankadeepa/scrape_lankadeepa.py
  src/scripts/news_first/scrape_news_first.py
  src/scripts/itnnews/itn_news_scraper.py

Modelling conventions:
  * Strings are Lean `String`s; all string work is done on the underlying
    `List Char` so every definition reduces in the kernel.
  * `datetime` values are a `PyDateTime` record of Nats (microseconds are
    not modelled; Python's `isoformat` omits the ".ffffff" part exactly
    when the microsecond is 0, so modelled values correspond one-to-one to
    microsecond-zero instants).
  * `datetime.now()` is passed in explicitly as a parameter.
  * `hashlib.md5(...).hexdigest()` is passed in as a function parameter
    `hash : String → String`; the scrapers only ever compare digests for
    equality, and what string is fed to the hash is modelled exactly.
  * The filesystem of saved articles is a `List (String × NewsArticle)`
    keyed by filename, with overwrite-on-existing-name semantics
    (`open(path, "w")` truncates).
  * Network fetches (`requests.get` + HTML/JSON decoding) are oracles:
    a listing oracle per scraper and a detail oracle for Lankadeepa.
-/

namespace NewsScraper

/-! ## Python string helpers, reduced to structural list recursion -/

/-- Characters Python's `str.split()` (no argument) and `\s` treat as
whitespace (the ASCII ones; the scrapers' inputs are never split on the
exotic unicode spaces). -/
def pyIsSpace (c : Char) : Bool :=
  c = ' ' || c = '\t' || c = '\n' || c = '\x0d' || c = '\x0c' || c = '\x0b'

/-- Split a character list at every character satisfying `p`, keeping empty
segments (the behaviour of Python's `str.split(sep)` for a one-character
`sep`, and the raw material for `str.split()`). -/
def splitPredAux (p : Char → Bool) : List Char → List Char → List (List Char)
  | [], acc => [acc.reverse]
  | c :: rest, acc =>
    if p c then acc.reverse :: splitPredAux p rest []
    else splitPredAux p rest (c :: acc)

/-- Python `s.split(sep)` for a single-character separator. -/
def splitOnChar (sep : Char) (s : String) : List String :=
  (splitPredAux (· = sep) s.data []).map (⟨·⟩)

/-- Python `s.split()` with no argument: split on runs of whitespace and
drop the empty pieces. -/
def pySplit (s : String) : List String :=
  ((splitPredAux pyIsSpace s.data []).filter (· ≠ [])).map (⟨·⟩)

/-- Python `s.zfill(2)`: pad on the left with zeros to length at least 2
(the scrapers never feed it a signed string). -/
def zfill2 (s : String) : String :=
  if s.length ≥ 2 then s
  else if s.length = 1 then "0" ++ s
  else "00"

/-- Lower-case an ASCII letter (Python `str.lower()` restricted to ASCII;
the category names it is applied to are ASCII). -/
def asciiLower (c : Char) : Char :=
  if 'A' ≤ c ∧ c ≤ 'Z' then Char.ofNat (c.toNat + 32) else c

/-- Python `s.lower()` on ASCII strings. -/
def strLower (s : String) : String := ⟨s.data.map asciiLower⟩

/-- Decimal digits of a Nat accumulated as characters (most significant
first); fuel-driven so it reduces structurally. -/
def natDigitsAux : Nat → Nat → List Char → List Char
  | 0, _, acc => acc
  | fuel + 1, n, acc =>
    let d := Char.ofNat (n % 10 + 48)
    if n < 10 then d :: acc else natDigitsAux fuel (n / 10) (d :: acc)

/-- Decimal rendering of a Nat. -/
def natToStr (n : Nat) : String := ⟨natDigitsAux (n + 1) n []⟩

/-- Zero-padded two-digit rendering (strftime `%m`, `%d`, `%H`, `%M`, `%S`). -/
def pad2 (n : Nat) : String := zfill2 (natToStr n)

/-- Zero-padded four-digit rendering (strftime `%Y`; the parsers below only
produce years of at most four digits). -/
def pad4 (n : Nat) : String :=
  let s := natToStr n
  if s.length ≥ 4 then s
  else ⟨List.replicate (4 - s.length) '0' ++ s.data⟩

/-- Parse a run of decimal digits into a Nat; `none` when the string is
empty or holds a non-digit. -/
def parseDigitsAux : List Char → Nat → Option Nat
  | [], acc => some acc
  | c :: rest, acc =>
    if c.isDigit then parseDigitsAux rest (acc * 10 + (c.toNat - 48)) else none

/-- All-digits decimal parse of a string (`none` on empty or non-digit). -/
def parseDigits (s : String) : Option Nat :=
  if s.data.isEmpty then none else parseDigitsAux s.data 0

/-! ## Python datetime, to second precision -/

/-- A `datetime.datetime` value with zero microsecond (see the header
comment); plain Nats, no machine arithmetic. -/
structure PyDateTime where
  year : Nat
  month : Nat
  day : Nat
  hour : Nat
  minute : Nat
  second : Nat
  deriving DecidableEq

def isLeapYear (y : Nat) : Bool :=
  (y % 4 = 0 && y % 100 ≠ 0) || y % 400 = 0

def daysInMonth (y m : Nat) : Nat :=
  if m = 2 then (if isLeapYear y then 29 else 28)
  else if m = 4 ∨ m = 6 ∨ m = 9 ∨ m = 11 then 30
  else 31

/-- `datetime.isoformat()` for a microsecond-zero value:
`YYYY-MM-DDTHH:MM:SS`. -/
def isoformat (t : PyDateTime) : String :=
  pad4 t.year ++ "-" ++ pad2 t.month ++ "-" ++ pad2 t.day ++ "T" ++
    pad2 t.hour ++ ":" ++ pad2 t.minute ++ ":" ++ pad2 t.second

/-- `datetime.strftime("%Y-%m-%d_%H_%M_%S")`, the filename stem both the
Hiru News and Lankadeepa savers use. -/
def strftimeFileStem (t : PyDateTime) : String :=
  pad4 t.year ++ "-" ++ pad2 t.month ++ "-" ++ pad2 t.day ++ "_" ++
    pad2 t.hour ++ "_" ++ pad2 t.minute ++ "_" ++ pad2 t.second

/-- The field-range validation `datetime.__new__` performs (plus the
calendar check): `MINYEAR = 1`, months 1..12, days 1..days-in-month,
hours 0..23, minutes/seconds 0..59. -/
def validDateTime (y mo d h mi s : Nat) : Bool :=
  1 ≤ y && y ≤ 9999 && 1 ≤ mo && mo ≤ 12 && 1 ≤ d && d ≤ daysInMonth y mo &&
    h ≤ 23 && mi ≤ 59 && s ≤ 59

/-- Helper for `strptime`: CPython compiles whitespace in the format to
`\s+` and requires the regex to consume the whole input, so a valid input
is exactly `token₁ ⟨whitespace run⟩ token₂` with non-empty tokens and no
leading or trailing whitespace.  Returns those two tokens. -/
def twoTokens (s : String) : Option (String × String) :=
  match splitPredAux pyIsSpace s.data [] with
  | [] => none
  | first :: rest =>
    if first.isEmpty then none
    else
      match rest.reverse with
      | [] => none
      | last :: middle =>
        if last.isEmpty || middle.any (fun l => !l.isEmpty) then none
        else some (⟨first⟩, ⟨last⟩)

/-- A numeric field of a strptime pattern: all digits, length within
`[lo, hi]`. -/
def numField (s : String) (lo hi : Nat) : Option Nat :=
  if lo ≤ s.length ∧ s.length ≤ hi ∧ s.data.all Char.isDigit then
    parseDigits s
  else none

/-- `datetime.strptime(s, "%Y-%m-%d %H:%M:%S")` (scrape_hirunews.py line 80):
CPython's `%Y` is exactly four digits, `%m`/`%d`/`%H`/`%M`/`%S` are one or
two digits, and the constructed datetime re-validates all fields (so
second 60/61, day 31 of a 30-day month, year 0000 all raise `ValueError`,
modelled as `none`). -/
def strptimeYmdHms (s : String) : Option PyDateTime :=
  match twoTokens s with
  | none => none
  | some (dpart, tpart) =>
    match splitOnChar '-' dpart, splitOnChar ':' tpart with
    | [ys, ms, ds], [hs, mis, ss] =>
      match numField ys 4 4, numField ms 1 2, numField ds 1 2,
          numField hs 1 2, numField mis 1 2, numField ss 1 2 with
      | some y, some mo, some d, some h, some mi, some sec =>
        if validDateTime y mo d h mi sec then
          some ⟨y, mo, d, h, mi, sec⟩
        else none
      | _, _, _, _, _, _ => none
    | _, _ => none

/-- `datetime.strptime(s, "%Y-%m-%d %H:%M")` (create_timestamp_filename in
scrape_news_first.py, line 158): as above but without a seconds field;
the missing second defaults to 0. -/
def strptimeYmdHm (s : String) : Option PyDateTime :=
  match twoTokens s with
  | none => none
  | some (dpart, tpart) =>
    match splitOnChar '-' dpart, splitOnChar ':' tpart with
    | [ys, ms, ds], [hs, mis] =>
      match numField ys 4 4, numField ms 1 2, numField ds 1 2,
          numField hs 1 2, numField mis 1 2 with
      | some y, some mo, some d, some h, some mi =>
        if validDateTime y mo d h mi 0 then
          some ⟨y, mo, d, h, mi, 0⟩
        else none
      | _, _, _, _, _ => none
    | _, _ => none

/-- `datetime.fromisoformat` restricted to the canonical
`YYYY-MM-DD⟨sep⟩HH:MM:SS` shapes the scrapers themselves produce (their
timestamps come from `isoformat` above, from `parse_sinhala_date`, or are
arbitrary text that no Python version accepts); `sep` is 'T' or ' '
depending on the caller.  Field widths are the canonical 4-2-2 / 2-2-2 and
the datetime constructor's validation applies. -/
def fromIsoCore (sep : Char) (s : String) : Option PyDateTime :=
  match splitOnChar sep s with
  | [dpart, tpart] =>
    match splitOnChar '-' dpart, splitOnChar ':' tpart with
    | [ys, ms, ds], [hs, mis, ss] =>
      match numField ys 4 4, numField ms 2 2, numField ds 2 2,
          numField hs 2 2, numField mis 2 2, numField ss 2 2 with
      | some y, some mo, some d, some h, some mi, some sec =>
        if validDateTime y mo d h mi sec then
          some ⟨y, mo, d, h, mi, sec⟩
        else none
      | _, _, _, _, _, _ => none
    | _, _ => none
  | _ => none

/-- `datetime.fromisoformat(ts.replace('Z', '+00:00'))` as the Hiru News
saver calls it (scrape_hirunews.py line 100); in the scraper's flow `ts`
never contains 'Z', so the replace is the identity. -/
def fromIsoT (s : String) : Option PyDateTime := fromIsoCore 'T' s

/-- `datetime.fromisoformat(ts.replace('T', ' ').replace('Z', ''))` as the
Lankadeepa saver calls it (scrape_lankadeepa.py line 278). -/
def lankaParseTs (s : String) : Option PyDateTime :=
  fromIsoCore ' ' ⟨(s.data.map fun c => if c = 'T' then ' ' else c).filter (· ≠ 'Z')⟩

/-! ## The common article record and the persisted state -/

/-- The `NewsArticle` dataclass shared verbatim by the Hiru News,
Lankadeepa and News First scrapers. -/
structure NewsArticle where
  id : String
  source : String
  headline : String
  content : String
  timestamp : String
  url : String
  deriving DecidableEq

/-- The scrapers' on-disk article store: filename ↦ article, with
`open(path, "w")` truncate-and-overwrite semantics. -/
def writeFile (fs : List (String × NewsArticle)) (name : String) (a : NewsArticle) :
    List (String × NewsArticle) :=
  if fs.any (fun p => p.1 = name) then
    fs.map (fun p => if p.1 = name then (name, a) else p)
  else fs ++ [(name, a)]

/-- State of a partition's persisted Seen-Set file, as the loaders see it:
absent, present but not valid JSON, or a valid JSON list of IDs. -/
inductive SeenFileState where
  | missing
  | invalidJson
  | validList (ids : List String)
  deriving DecidableEq

/-- `HiruNewsScraper.load_existing_ids` (scrape_hirunews.py lines 31-42):
the read is wrapped in `try/except (json.JSONDecodeError, FileNotFoundError)`
returning the empty set, and a missing file also yields the empty set. -/
def hiru_load_existing_ids : SeenFileState → List String
  | .missing => []
  | .invalidJson => []
  | .validList ids => ids

/-- `load_existing_ids` of scrape_news_first.py (lines 32-43): identical
`try/except` structure to the Hiru News loader. -/
def nf_load_existing_ids : SeenFileState → List String
  | .missing => []
  | .invalidJson => []
  | .validList ids => ids

/-- `LankadeepaNewscraper.load_existing_ids` (scrape_lankadeepa.py lines
252-259): a missing file yields the empty set, but the `json.load` call has
no `try/except`, so a file that is not valid JSON raises
`json.JSONDecodeError`, modelled as `Except.error`. -/
def lanka_load_existing_ids : SeenFileState → Except String (List String)
  | .missing => .ok []
  | .invalidJson => .error "json.JSONDecodeError"
  | .validList ids => .ok ids

/-! ## File-operation traces of the Seen-Set savers (for the atomicity claim) -/

/-- The sequence of filesystem operations a saver performs.  `writeJsonList`
carries the ID list whose JSON rendering is written. -/
inductive FileOp where
  | mkdirp (dir : String)
  | openTrunc (path : String)
  | writeJsonList (path : String) (ids : List String)
  | closeFile (path : String)
  | rename (src dst : String)
  deriving DecidableEq

/-- The write-to-temporary-then-rename discipline the spec's `save` contract
demands: all JSON writing goes to some temporary path distinct from the
final one, which is then renamed onto the final path. -/
def atomicReplaceDiscipline (ops : List FileOp) (finalPath : String) : Prop :=
  ∃ tmp, tmp ≠ finalPath ∧ FileOp.rename tmp finalPath ∈ ops ∧
    ∀ ids, FileOp.writeJsonList finalPath ids ∉ ops

/-- `HiruNewsScraper.save_existing_ids` (scrape_hirunews.py lines 44-51):
`os.makedirs(..., exist_ok=True)` then `open(existing_ids_file, 'w')` and
`json.dump` straight into the final path.  (The absolute prefix computed
from `__file__` is elided; only the path's tail matters.) -/
def hiru_save_existing_ids_ops (category : String) (ids : List String) : List FileOp :=
  let dir := "data/hirunews/" ++ strLower category
  let file := dir ++ "/existing_ids.json"
  [.mkdirp dir, .openTrunc file, .writeJsonList file ids, .closeFile file]

/-- `LankadeepaNewscraper.save_existing_ids` (scrape_lankadeepa.py lines
261-267): same direct-write structure. -/
def lanka_save_existing_ids_ops (category : String) (ids : List String) : List FileOp :=
  let dir := "../../data/lankadeepa/" ++ category
  let file := dir ++ "/existing_ids.json"
  [.mkdirp dir, .openTrunc file, .writeJsonList file ids, .closeFile file]

/-- `save_existing_ids` of scrape_news_first.py (lines 45-51): same
direct-write structure (`ensure_data_directory` performs the mkdir). -/
def nf_save_existing_ids_ops (category : String) (ids : List String) : List FileOp :=
  let dir := "data/news_first/" ++ category
  let file := dir ++ "/existing_ids.json"
  [.mkdirp dir, .openTrunc file, .writeJsonList file ids, .closeFile file]

/-! ## Crawl events

Each scrape run is modelled to also emit a chronological trace of events,
so that ordering claims ("marked seen only after durably written") are
statements about the trace. -/

inductive Event where
  | fetchPage (page : Nat)
  | skip (id : String)
  | persist (id : String) (file : String)
  | markSeen (id : String)
  | writeFail (id : String)
  | detailFail (url : String)
  | gateFail (url : String)
  deriving DecidableEq

/-- Trace check for the Seen-Set invariant: scanning left to right while
accumulating the IDs persisted so far, every `markSeen i` must find `i`
already persisted. -/
def checkSeenAfterPersist (persisted : List String) : List Event → Bool
  | [] => true
  | .persist i _ :: tr => checkSeenAfterPersist (i :: persisted) tr
  | .markSeen i :: tr => persisted.contains i && checkSeenAfterPersist persisted tr
  | _ :: tr => checkSeenAfterPersist persisted tr

/-- The IDs persisted in a trace, newest first, on top of `persisted`. -/
def persistedAfter (persisted : List String) : List Event → List String
  | [] => persisted
  | .persist i _ :: tr => persistedAfter (i :: persisted) tr
  | _ :: tr => persistedAfter persisted tr

/-- A trace fragment that passes the Seen-Set check under every starting
set of already-persisted IDs (so it can be spliced into any context). -/
def SeenAfterPersistAll (tr : List Event) : Prop :=
  ∀ persisted, checkSeenAfterPersist persisted tr = true

/-! ## Lankadeepa: Sinhala date parsing -/

/-- The Sinhala month-name table of `parse_sinhala_date`
(scrape_lankadeepa.py lines 132-136). -/
def sinhala_months : List (String × String) :=
  [("ජනවාරි", "01"), ("පෙබරවාරි", "02"), ("මාර්තු", "03"), ("අප්‍රේල්", "04"),
   ("මැයි", "05"), ("ජුනි", "06"), ("ජූලි", "07"), ("අගෝස්තු", "08"),
   ("සැප්තැම්බර්", "09"), ("ඔක්තෝබර්", "10"), ("නොවැම්බර්", "11"), ("දෙසැම්බර්", "12")]

/-- `LankadeepaNewscraper.parse_sinhala_date` (scrape_lankadeepa.py lines
128-155).  `now` models `datetime.now()`: when the text does not split into
at least four whitespace-separated parts the function falls back to
`datetime.now().isoformat()`.  Inside the success branch nothing can raise:
an unknown month word takes the dictionary default '01'. -/
def parse_sinhala_date (now : PyDateTime) (dateText : String) : String :=
  let parts := pySplit dateText
  if parts.length ≥ 4 then
    let year := parts.getD 0 ""
    let monthSinhala := parts.getD 1 ""
    let day := parts.getD 3 ""
    let monthNum := (sinhala_months.lookup monthSinhala).getD "01"
    year ++ "-" ++ monthNum ++ "-" ++ zfill2 day ++ "T00:00:00"
  else
    isoformat now

/-- Whether `parse_sinhala_date` takes its parsing branch (rather than the
current-time fallback): exactly when the text has at least four
whitespace-separated parts. -/
def sinhalaDateParses (dateText : String) : Bool :=
  (pySplit dateText).length ≥ 4

/-! ## Hiru News scraper (scrape_hirunews.py)

`hash` stands for `lambda text: hashlib.md5(text.encode()).hexdigest()`
(`get_md5_hash`): the scraper only compares digests for equality, and the
string fed to the hash is modelled exactly (the raw `seourltitle`). -/

/-- The fields of one element of the Hiru News API's JSON response that
`parse_article` reads (each via `.get(key, "")`). -/
structure HiruArticleData where
  seourltitle : String
  sinhala_title : String
  sinhala_story : String
  sinhala_added_date : String
  deriving DecidableEq

/-- `HiruNewsScraper.parse_article` (scrape_hirunews.py lines 72-91):
the ID is the hash of the raw `seourltitle`; the timestamp is
`strptime(..., "%Y-%m-%d %H:%M:%S").isoformat()` with a silent fallback to
`datetime.now().isoformat()` on `ValueError`. -/
def hiru_parse_article (hash : String → String) (now : PyDateTime)
    (d : HiruArticleData) : NewsArticle :=
  let timestamp :=
    match strptimeYmdHms d.sinhala_added_date with
    | some t => isoformat t
    | none => isoformat now
  { id := hash d.seourltitle
    source := "hirunews"
    headline := d.sinhala_title
    content := d.sinhala_story
    timestamp := timestamp
    url := "https://hirunews.lk/" ++ d.seourltitle }

/-- The filename `HiruNewsScraper.save_article` computes (lines 99-105):
`fromisoformat` of the article's timestamp (falling back to
`datetime.now()` on failure) rendered as `%Y-%m-%d_%H_%M_%S`, then the
article ID. -/
def hiru_article_filename (now : PyDateTime) (a : NewsArticle) : String :=
  let dt := (fromIsoT a.timestamp).getD now
  strftimeFileStem dt ++ "_" ++ a.id ++ ".json"

/-- `HiruNewsScraper.save_article` (lines 93-123) as a filesystem update:
`open(filepath, 'w')` truncates, so an existing file of the same name is
overwritten. -/
def hiru_save_article (now : PyDateTime) (fs : List (String × NewsArticle))
    (a : NewsArticle) : List (String × NewsArticle) :=
  writeFile fs (hiru_article_filename now a) a

/-- The mutable state `scrape_category` threads through its per-article
loop: the in-memory Seen-Set, the article store, the `new_ids` set and the
counters, plus the emitted event trace. -/
structure HiruCore where
  existing : List String
  files : List (String × NewsArticle)
  newIds : List String
  total : Nat
  skipped : Nat
  events : List Event
  deriving DecidableEq

/-- The body of `for article_data in articles_data` (scrape_hirunews.py
lines 144-162), returning the updated state and the page's new-article
count.  `writeOk a.id = false` models `save_article` raising (a
persistence error): the surrounding `except` catches it and continues, so
nothing is recorded for that candidate.  Note there is no
minimum-viable-record check: every unseen candidate is saved, whatever its
headline or content. -/
def hiru_process_page (hash : String → String) (now : PyDateTime)
    (writeOk : String → Bool) : List HiruArticleData → HiruCore → Nat → HiruCore × Nat
  | [], core, pageNew => (core, pageNew)
  | d :: rest, core, pageNew =>
    let a := hiru_parse_article hash now d
    if core.existing.contains a.id then
      hiru_process_page hash now writeOk rest
        { core with skipped := core.skipped + 1, events := core.events ++ [.skip a.id] }
        pageNew
    else if writeOk a.id then
      hiru_process_page hash now writeOk rest
        { core with
            files := hiru_save_article now core.files a
            newIds := a.id :: core.newIds
            existing := a.id :: core.existing
            total := core.total + 1
            events := core.events ++
              [.persist a.id (hiru_article_filename now a), .markSeen a.id] }
        (pageNew + 1)
    else
      hiru_process_page hash now writeOk rest
        { core with events := core.events ++ [.writeFail a.id] } pageNew

/-- Result of a Hiru News category crawl: the final core state plus the
pages requested from the API and each processed page's new-article count. -/
structure HiruRun where
  core : HiruCore
  requested : List Nat
  pageResults : List (Nat × Nat)
  deriving DecidableEq

/-- The pagination loop of `HiruNewsScraper.scrape_category` (lines
133-172): request pages 1, 2, ... up to `max_pages`; break on an empty
response; break after any page that produced zero new articles.  `fuel` is
the number of loop iterations remaining. -/
def hiru_go (hash : String → String) (now : PyDateTime)
    (listing : Nat → List HiruArticleData) (writeOk : String → Bool) :
    Nat → Nat → HiruRun → HiruRun
  | _, 0, st => st
  | page, fuel + 1, st =>
    let st := { st with
      requested := st.requested ++ [page]
      core := { st.core with events := st.core.events ++ [.fetchPage page] } }
    let ds := listing page
    if ds.isEmpty then st
    else
      let pr := hiru_process_page hash now writeOk ds st.core 0
      let st' : HiruRun :=
        { st with core := pr.1, pageResults := st.pageResults ++ [(page, pr.2)] }
      if pr.2 = 0 then st'
      else hiru_go hash now listing writeOk (page + 1) fuel st'

/-- `HiruNewsScraper.scrape_category` (lines 125-179) for one category:
load the Seen-Set (its loaded value is the `existing₀` argument), crawl, and
the per-run counters start at zero.  The final `save_existing_ids` writes
`core.existing` back when `core.newIds` is non-empty (and when it is empty,
`core.existing` equals the loaded set, so the set a later run loads is
`core.existing` either way). -/
def hiru_scrape_category (hash : String → String) (now : PyDateTime)
    (listing : Nat → List HiruArticleData) (writeOk : String → Bool)
    (maxPages : Nat) (existing₀ : List String)
    (files₀ : List (String × NewsArticle)) : HiruRun :=
  hiru_go hash now listing writeOk 1 maxPages
    { core := { existing := existing₀, files := files₀, newIds := [], total := 0,
                skipped := 0, events := [] }
      requested := []
      pageResults := [] }

/-! ## Lankadeepa scraper (scrape_lankadeepa.py)

`hash` stands for `encode_url` = `hashlib.md5(url.encode()).hexdigest()`.
The HTML adapter boundary is two oracles: `listing offset` is
`extract_article_urls_with_timestamps(get_category_page(category, offset))`
(`none` when the page fetch failed), and `detail url` is the outcome of the
article-page fetch inside `scrape_article` (`none` for a
`requests.RequestException`, otherwise the extracted headline, content and
the timestamp the page-side fallback extraction would produce). -/

/-- One entry of `extract_article_urls_with_timestamps`' result: the
article URL and the (always non-empty, possibly fallback) pre-extracted
timestamp, or `None` when no timestamp span was found. -/
structure LankaCandidate where
  url : String
  timestamp : Option String
  deriving DecidableEq

/-- What the article-page fetch of `scrape_article` yields when the HTTP
request succeeds: the extracted headline and content (possibly empty
strings), and the timestamp the in-page fallback extraction would settle
on (`datetime.now().isoformat()` if no date is found on the page). -/
structure LankaDetail where
  headline : String
  content : String
  pageTimestamp : String
  deriving DecidableEq

/-- `LankadeepaNewscraper.scrape_article` (lines 157-250): `None` on a
request failure; otherwise an article whose ID hashes the raw URL and
whose timestamp is the pre-extracted one when present (pre-extracted
timestamps are never the empty string, so Python's truthiness test
coincides with `Option.getD`). -/
def lanka_scrape_article (hash : String → String)
    (detail : String → Option LankaDetail)
    (url : String) (preTs : Option String) : Option NewsArticle :=
  match detail url with
  | none => none
  | some d =>
    some { id := hash url
           source := "Lankadeepa"
           headline := d.headline
           content := d.content
           timestamp := preTs.getD d.pageTimestamp
           url := url }

/-- The filename `LankadeepaNewscraper.save_article` computes (lines
274-284). -/
def lanka_article_filename (now : PyDateTime) (category : String)
    (a : NewsArticle) : String :=
  let stem :=
    match lankaParseTs a.timestamp with
    | some dt => strftimeFileStem dt
    | none => strftimeFileStem now
  "../../data/lankadeepa/" ++ category ++ "/" ++ stem ++ "_" ++ a.id ++ ".json"

/-- Step 1 of `scrape_category` (lines 296-307): request every page offset
`0, 30, ..., (num_pages-1)*30` unconditionally, concatenating the
candidates of the pages that fetched; a failed page contributes nothing
but does not stop the loop.  Returns (requested offsets, all candidates). -/
def lanka_gather (listing : Nat → Option (List LankaCandidate)) :
    Nat → Nat → List Nat × List LankaCandidate
  | _, 0 => ([], [])
  | page, fuel + 1 =>
    let offset := page * 30
    let rc := lanka_gather listing (page + 1) fuel
    match listing offset with
    | some l => (offset :: rc.1, l ++ rc.2)
    | none => (offset :: rc.1, rc.2)

/-- The URL-deduplication pass of `scrape_category` (lines 309-315): keep
the first candidate for each URL. -/
def lanka_dedup : List LankaCandidate → List String → List LankaCandidate
  | [], _ => []
  | c :: rest, seenUrls =>
    if seenUrls.contains c.url then lanka_dedup rest seenUrls
    else c :: lanka_dedup rest (c.url :: seenUrls)

/-- The mutable state of Step 3 of `scrape_category`. -/
structure LankaCore where
  existing : List String
  files : List (String × NewsArticle)
  newCount : Nat
  skipped : Nat
  events : List Event
  deriving DecidableEq

/-- Step 3 of `scrape_category` (lines 335-360): for each unique candidate,
skip it when its ID is already known; otherwise fetch the detail and — only
when an article came back with non-empty headline *and* non-empty content —
save it and add its ID to the in-memory Seen-Set. -/
def lanka_process (hash : String → String) (now : PyDateTime)
    (detail : String → Option LankaDetail) (category : String) :
    List LankaCandidate → LankaCore → LankaCore
  | [], core => core
  | c :: rest, core =>
    let urlId := hash c.url
    if core.existing.contains urlId then
      lanka_process hash now detail category rest
        { core with skipped := core.skipped + 1, events := core.events ++ [.skip urlId] }
    else
      match lanka_scrape_article hash detail c.url c.timestamp with
      | none =>
        lanka_process hash now detail category rest
          { core with events := core.events ++ [.detailFail c.url] }
      | some a =>
        if a.headline ≠ "" ∧ a.content ≠ "" then
          lanka_process hash now detail category rest
            { core with
                files := writeFile core.files (lanka_article_filename now category a) a
                existing := a.id :: core.existing
                newCount := core.newCount + 1
                events := core.events ++
                  [.persist a.id (lanka_article_filename now category a), .markSeen a.id] }
        else
          lanka_process hash now detail category rest
            { core with events := core.events ++ [.gateFail c.url] }

/-- Result of a Lankadeepa category crawl. -/
structure LankaRun where
  core : LankaCore
  requested : List Nat
  candidates : List LankaCandidate
  deriving DecidableEq

/-- `LankadeepaNewscraper.scrape_category` (lines 289-369): gather all
pages up front, dedup by URL, load the Seen-Set (its loaded value is
`existing₀`), process every unique candidate, then save the updated IDs
unconditionally (Step 4), so the Seen-Set a later run loads is
`core.existing`. -/
def lanka_scrape_category (hash : String → String) (now : PyDateTime)
    (listing : Nat → Option (List LankaCandidate))
    (detail : String → Option LankaDetail) (category : String)
    (numPages : Nat) (existing₀ : List String)
    (files₀ : List (String × NewsArticle)) : LankaRun :=
  let rc := lanka_gather listing 0 numPages
  let uniqueCands := lanka_dedup rc.2 []
  let core := lanka_process hash now detail category uniqueCands
    { existing := existing₀, files := files₀, newCount := 0, skipped := 0, events := [] }
  { core := core, requested := rc.1, candidates := uniqueCands }

/-! ## News First scraper (scrape_news_first.py)

The API boundary is an oracle `listing page` giving the result of
`convert_to_news_articles(fetch_news_data(category_id, page, 10))`: the
empty list both for a failed fetch and for an empty page (the code
`continue`s either way). -/

/-- `get_md5_hash(article_url)` of `convert_to_news_articles`
(scrape_news_first.py lines 129-134): the hashed string is
`"https://sinhala.newsfirst.lk/" + post.get('post_url', '')`, with no
canonicalization of any kind. -/
def nf_article_id (hash : String → String) (post_url : String) : String :=
  hash ("https://sinhala.newsfirst.lk/" ++ post_url)

/-- `create_timestamp_filename` (scrape_news_first.py lines 149-171):
ISO parse when the timestamp contains a 'T', else
`strptime("%Y-%m-%d %H:%M")`; any failure falls back to the current time. -/
def nf_filename (now : PyDateTime) (timestamp articleId : String) : String :=
  let dt :=
    if timestamp.data.contains 'T' then (fromIsoT timestamp).getD now
    else (strptimeYmdHm timestamp).getD now
  strftimeFileStem dt ++ "_" ++ articleId ++ ".json"

/-- The run state of a News First category scrape: the persisted Seen-Set
file (`none` = not yet created), the article store, counters, the trace,
and whether an uncaught exception has aborted the run (`save_article_to_file`
has no `try`, so a write failure propagates out of
`save_articles_by_category`, skipping everything after it — including the
`save_existing_ids` call). -/
structure NfState where
  seenFile : Option (List String)
  files : List (String × NewsArticle)
  newCount : Nat
  skipped : Nat
  events : List Event
  aborted : Bool
  deriving DecidableEq

/-- The per-article loop of `save_articles_by_category`
(scrape_news_first.py lines 230-241), threading the freshly loaded
`existing` set and the accumulating `new_ids`; at the end (lines 243-245)
the IDs file is rewritten only when `new_ids` is non-empty.
`writeOk a.id = false` models a write failure: the exception aborts the
whole run with nothing recorded for that candidate. -/
def nf_process_arts (now : PyDateTime) (writeOk : String → Bool) :
    List NewsArticle → List String → List String → NfState → NfState
  | [], existing, newIds, st =>
    if newIds.isEmpty then st else { st with seenFile := some existing }
  | a :: rest, existing, newIds, st =>
    if existing.contains a.id then
      nf_process_arts now writeOk rest existing newIds
        { st with skipped := st.skipped + 1, events := st.events ++ [.skip a.id] }
    else if writeOk a.id then
      nf_process_arts now writeOk rest (a.id :: existing) (a.id :: newIds)
        { st with
            files := writeFile st.files (nf_filename now a.timestamp a.id) a
            newCount := st.newCount + 1
            events := st.events ++
              [.persist a.id (nf_filename now a.timestamp a.id), .markSeen a.id] }
    else
      { st with events := st.events ++ [.writeFail a.id], aborted := true }

/-- The set `load_existing_ids` yields for a given Seen-Set file state
(`none` = file not yet created). -/
def nf_loaded (seenFile : Option (List String)) : List String :=
  nf_load_existing_ids
    (match seenFile with
     | none => SeenFileState.missing
     | some ids => SeenFileState.validList ids)

/-- `save_articles_by_category` (lines 217-248): reload the Seen-Set file,
process the page's articles, update the file when something new was saved. -/
def nf_save_articles_by_category (now : PyDateTime) (writeOk : String → Bool)
    (arts : List NewsArticle) (st : NfState) : NfState :=
  nf_process_arts now writeOk arts (nf_loaded st.seenFile) [] st

/-- The page loop of `scrape_single_category` (scrape_news_first.py lines
326-345): pages 1..maxPages are all requested (an empty result means
`continue`, not `break`); an uncaught exception stops the process. -/
def nf_go (now : PyDateTime) (writeOk : String → Bool)
    (listing : Nat → List NewsArticle) : Nat → Nat → NfState → NfState
  | _, 0, st => st
  | page, fuel + 1, st =>
    if st.aborted then st
    else
      let st := { st with events := st.events ++ [.fetchPage page] }
      let arts := listing page
      let st' := if arts.isEmpty then st
                 else nf_save_articles_by_category now writeOk arts st
      nf_go now writeOk listing (page + 1) fuel st'

/-- `scrape_single_category` (lines 311-348) for one category, starting
from a given Seen-Set file state and article store. -/
def nf_scrape_single_category (now : PyDateTime) (writeOk : String → Bool)
    (listing : Nat → List NewsArticle) (maxPages : Nat)
    (seenFile₀ : Option (List String))
    (files₀ : List (String × NewsArticle)) : NfState :=
  nf_go now writeOk listing 1 maxPages
    { seenFile := seenFile₀, files := files₀, newCount := 0, skipped := 0,
      events := [], aborted := false }

/-! ## ITN scraper (itn_news_scraper.py): the minimum-viable-record gate -/

/-- `ITNNewsScraper.scrape_individual_article` (itn_news_scraper.py lines
185-197), after extraction: when headline or content is empty the function
returns `None` ("Missing essential data"), so no article is ever built,
persisted or marked for such a page. -/
def itn_scrape_individual_article (headline content timestamp url : String) :
    Option NewsArticle :=
  if headline = "" ∨ content = "" then none
  else
    some { id := "", source := "ITN News", headline := headline,
           content := content, timestamp := timestamp, url := url }

/-! ## The spec's canonicalization, for comparison with the call sites -/

/-- Modelled from the spec: §4.1's canonicalization of a natural key
("strip trailing slash, lowercase scheme/host"), which the spec says must
happen before hashing at every call site.  This definition follows the
spec's words (the code has no such canonicalization anywhere): drop one
trailing '/', and lower-case the scheme (the part before "://") and the
host (the part from there to the next '/'). -/
def canonicalize_key (k : String) : String :=
  let k := if k.data.getLast? = some '/' then ⟨k.data.dropLast⟩ else k
  match splitSchemeRest k.data with
  | none => k
  | some (scheme, rest) =>
    let (host, path) := spanNonSlash rest
    ⟨scheme.map asciiLower ++ [':', '/', '/'] ++ host.map asciiLower ++ path⟩
where
  /-- Split at the first occurrence of "://". -/
  splitSchemeRest : List Char → Option (List Char × List Char)
    | ':' :: '/' :: '/' :: rest => some ([], rest)
    | c :: rest =>
      (splitSchemeRest rest).map (fun p => (c :: p.1, p.2))
    | [] => none
  /-- The longest '/'-free initial segment and the remainder. -/
  spanNonSlash : List Char → List Char × List Char
    | [] => ([], [])
    | c :: rest =>
      if c = '/' then ([], c :: rest)
      else
        let (a, b) := spanNonSlash rest
        (c :: a, b)

/-! ## Shared helper facts -/

theorem string_append_ne_self (k : String) : k ++ "/" ≠ k := by
  intro h
  have hlen : (k ++ "/").length = k.length := congrArg String.length h
  rw [String.length_append] at hlen
  have h1 : ("/" : String).length = 1 := rfl
  rw [h1] at hlen
  omega

/-! ## Claim C3: Seen-Set load on missing and malformed state -/

/-- C3, corrected.  The claim says every loader returns the empty set both
when no persisted state exists and when it is malformed, never raising.
That is true of the Hiru News and News First loaders (whose `json.load` is
wrapped in `try/except`), and of the Lankadeepa loader for *missing* state;
but the Lankadeepa loader has no `try/except`, so malformed JSON raises
`json.JSONDecodeError` and aborts the run. -/
theorem c3_load_missing_or_malformed :
    hiru_load_existing_ids .missing = [] ∧
    hiru_load_existing_ids .invalidJson = [] ∧
    nf_load_existing_ids .missing = [] ∧
    nf_load_existing_ids .invalidJson = [] ∧
    lanka_load_existing_ids .missing = .ok [] ∧
    lanka_load_existing_ids .invalidJson = .error "json.JSONDecodeError" := by
  refine ⟨rfl, rfl, rfl, rfl, rfl, rfl⟩

/-- C3, counterexample to the claim as stated: on a malformed (not valid
JSON) Seen-Set file, the Lankadeepa loader raises instead of returning the
empty set. -/
theorem c3_counterexample_lanka_load_raises :
    lanka_load_existing_ids .invalidJson = .error "json.JSONDecodeError" ∧
    lanka_load_existing_ids .invalidJson ≠ .ok [] := by
  exact ⟨rfl, fun h => Except.noConfusion h⟩

/-! ## Claim C4: atomicity of the Seen-Set save -/

/-- C4, corrected.  The claim says every saver writes to a temporary
location and then atomically renames.  In fact all three savers
`json.dump` straight into the final path through `open(path, 'w')`: the
operation trace contains a truncating write to the final path and no
rename at all, so a concurrent reader can observe a partially-written
file. -/
theorem c4_save_writes_directly (category : String) (ids : List String) :
    (FileOp.writeJsonList ("data/hirunews/" ++ strLower category ++ "/existing_ids.json") ids
        ∈ hiru_save_existing_ids_ops category ids) ∧
    (FileOp.writeJsonList ("../../data/lankadeepa/" ++ category ++ "/existing_ids.json") ids
        ∈ lanka_save_existing_ids_ops category ids) ∧
    (FileOp.writeJsonList ("data/news_first/" ++ category ++ "/existing_ids.json") ids
        ∈ nf_save_existing_ids_ops category ids) ∧
    (∀ src dst, FileOp.rename src dst ∉ hiru_save_existing_ids_ops category ids) ∧
    (∀ src dst, FileOp.rename src dst ∉ lanka_save_existing_ids_ops category ids) ∧
    (∀ src dst, FileOp.rename src dst ∉ nf_save_existing_ids_ops category ids) := by
  unfold hiru_save_existing_ids_ops lanka_save_existing_ids_ops nf_save_existing_ids_ops
  refine ⟨?_, ?_, ?_, ?_, ?_, ?_⟩
  · exact .tail _ (.tail _ (.head _))
  · exact .tail _ (.tail _ (.head _))
  · exact .tail _ (.tail _ (.head _))
  all_goals
    intro src dst h
    rcases h with _ | ⟨_, _ | ⟨_, _ | ⟨_, _ | ⟨_, h⟩⟩⟩⟩
    exact (List.not_mem_nil _ h)

/-- C4, counterexample to the claim as stated: at a concrete partition and
Seen-Set value, the Hiru News save performs no write-to-temporary-then-
rename at all — its only JSON write goes directly to the final path. -/
theorem c4_counterexample_no_atomic_replace :
    ¬ atomicReplaceDiscipline (hiru_save_existing_ids_ops "Sports" ["a"])
        "data/hirunews/sports/existing_ids.json" ∧
    FileOp.writeJsonList "data/hirunews/sports/existing_ids.json" ["a"]
        ∈ hiru_save_existing_ids_ops "Sports" ["a"] := by
  constructor
  · rintro ⟨tmp, -, hmem, -⟩
    simp [hiru_save_existing_ids_ops] at hmem
  · decide

/-! ## Claim C5: canonicalization of natural keys before hashing -/

/-- C5, corrected (amended claim).  No canonicalization happens anywhere:
the Hiru News ID hashes the raw `seourltitle`, the Lankadeepa ID hashes the
raw article URL, the News First ID hashes `base_url + post_url` verbatim,
and two natural keys differing only by a trailing slash are different
strings, hence different hash inputs (so they get different IDs for any
collision-free digest, rather than the same ID the claim asserts). -/
theorem c5_raw_key_hashed (hash : String → String) (now : PyDateTime)
    (d : HiruArticleData) (detail : String → Option LankaDetail)
    (url : String) (preTs : Option String) (post_url : String) (k : String) :
    (hiru_parse_article hash now d).id = hash d.seourltitle ∧
    (lanka_scrape_article hash detail url preTs).map NewsArticle.id
      = (detail url).map (fun _ => hash url) ∧
    nf_article_id hash post_url = hash ("https://sinhala.newsfirst.lk/" ++ post_url) ∧
    k ++ "/" ≠ k := by
  refine ⟨rfl, ?_, rfl, string_append_ne_self k⟩
  unfold lanka_scrape_article
  cases detail url <;> rfl

/-- C5, counterexample to the claim as stated: instantiating the digest
with the identity function (the claim quantifies over call sites, not over
a particular digest), the Lankadeepa call site feeds the hash the raw URL,
not its canonicalization, and the two trailing-slash variants of one key
produce different IDs. -/
theorem c5_counterexample_no_canonicalization :
    (lanka_scrape_article (fun s => s) (fun _ => some ⟨"h", "c", "t"⟩)
        "https://www.lankadeepa.lk/news/1/" none).map NewsArticle.id
      = some "https://www.lankadeepa.lk/news/1/" ∧
    canonicalize_key "https://www.lankadeepa.lk/news/1/"
      = "https://www.lankadeepa.lk/news/1" ∧
    "https://www.lankadeepa.lk/news/1/" ≠ canonicalize_key "https://www.lankadeepa.lk/news/1/" ∧
    (lanka_scrape_article (fun s => s) (fun _ => some ⟨"h", "c", "t"⟩)
        "https://www.lankadeepa.lk/news/1/" none).map NewsArticle.id
      ≠ (lanka_scrape_article (fun s => s) (fun _ => some ⟨"h", "c", "t"⟩)
        "https://www.lankadeepa.lk/news/1" none).map NewsArticle.id := by
  refine ⟨rfl, by decide, by decide, by decide⟩

/-! ## Claim C9: fallback timestamps are untagged and indistinguishable -/

/-- C9, corrected (amended claim).  When the source date text cannot be
parsed, both the Lankadeepa and Hiru News parsers silently fall back to
`datetime.now().isoformat()` and store it in the same `timestamp` string
field as genuine parsed dates, with no tag or flag of any kind. -/
theorem c9_fallback_is_untagged_now (now : PyDateTime) (text : String)
    (hash : String → String) (d : HiruArticleData)
    (hlanka : sinhalaDateParses text = false)
    (hhiru : strptimeYmdHms d.sinhala_added_date = none) :
    parse_sinhala_date now text = isoformat now ∧
    (hiru_parse_article hash now d).timestamp = isoformat now := by
  constructor
  · unfold parse_sinhala_date
    rw [if_neg]
    intro h
    have htrue : sinhalaDateParses text = true := by
      unfold sinhalaDateParses
      exact decide_eq_true h
    rw [htrue] at hlanka
    exact Bool.noConfusion hlanka
  · simp [hiru_parse_article, hhiru]

/-- C9, witness for the amended theorem at concrete inputs. -/
theorem c9_witness :
    parse_sinhala_date ⟨2025, 6, 22, 0, 0, 0⟩ "not a date"
        = "2025-06-22T00:00:00" ∧
    (hiru_parse_article (fun s => s) ⟨2025, 6, 22, 0, 0, 0⟩
        ⟨"slug", "title", "story", "garbage"⟩).timestamp = "2025-06-22T00:00:00" := by
  have h := c9_fallback_is_untagged_now ⟨2025, 6, 22, 0, 0, 0⟩ "not a date"
    (fun s => s) ⟨"slug", "title", "story", "garbage"⟩ (by decide) (by decide)
  exact ⟨by rw [h.1]; decide, by rw [h.2]; decide⟩

/-- C9, counterexample to the claim as stated: a fallback timestamp (from
unparseable text, at a clock reading of 2025-06-22 00:00:00) is
byte-for-byte identical to a genuinely parsed timestamp (of the listing
text "2025 ජුනි මස 22"), stored in the same field: no consumer can tell
them apart, whereas the claim says they are never stored
indistinguishably. -/
theorem c9_counterexample_indistinguishable :
    sinhalaDateParses "2025 ජුනි මස 22" = true ∧
    sinhalaDateParses "not-a-date" = false ∧
    parse_sinhala_date ⟨2025, 6, 22, 0, 0, 0⟩ "not-a-date"
      = parse_sinhala_date ⟨2099, 1, 1, 3, 4, 5⟩ "2025 ජුනි මස 22" := by
  refine ⟨by decide, by decide, by decide⟩

/-! ## Claim C10: unknown Sinhala month words default to January -/

/-- C10, confirmed.  For any date text with at least four
whitespace-separated parts whose month word (part 1) is not one of the
twelve Sinhala month names, `parse_sinhala_date` takes the parsing branch
(not the current-time fallback) and builds `"year-01-dayT00:00:00"` from
the year (part 0) and day (part 3), the `'01'` coming from the
dictionary's `.get(month, '01')` default. -/
theorem c10_unknown_month_defaults_to_january (now : PyDateTime) (text : String)
    (hlen : 4 ≤ (pySplit text).length)
    (hmonth : sinhala_months.lookup ((pySplit text).getD 1 "") = none) :
    parse_sinhala_date now text
      = (pySplit text).getD 0 "" ++ "-" ++ "01" ++ "-" ++ zfill2 ((pySplit text).getD 3 "")
          ++ "T00:00:00" := by
  unfold parse_sinhala_date
  simp only [ge_iff_le, hlen, if_true, hmonth, Option.getD_none]

/-- C10, witness at a concrete input: "Junk" is not a Sinhala month name,
and the result is a January timestamp built from the year and day parts. -/
theorem c10_witness :
    4 ≤ (pySplit "2025 Junk මස 22").length ∧
    sinhala_months.lookup ((pySplit "2025 Junk මස 22").getD 1 "") = none ∧
    parse_sinhala_date ⟨2099, 1, 1, 0, 0, 0⟩ "2025 Junk මස 22"
      = "2025-01-22T00:00:00" := by
  refine ⟨by decide, by decide, ?_⟩
  rw [c10_unknown_month_defaults_to_january ⟨2099, 1, 1, 0, 0, 0⟩ _ (by decide) (by decide)]
  decide

/-! ## Claim C8: idempotent persistence -/

theorem writeFile_mem {fs : List (String × NewsArticle)} {n : String}
    {a : NewsArticle} {e : String × NewsArticle} (h : e ∈ writeFile fs n a) :
    e = (n, a) ∨ e ∈ fs := by
  unfold writeFile at h
  by_cases hany : fs.any (fun p => p.1 = n)
  · rw [if_pos hany] at h
    rcases List.mem_map.mp h with ⟨p, hp, he⟩
    by_cases hpn : p.1 = n
    · left
      rw [← he]
      simp [hpn]
    · right
      rw [← he]
      simpa [hpn] using hp
  · rw [if_neg hany] at h
    rcases List.mem_append.mp h with h | h
    · exact Or.inr h
    · exact Or.inl (List.mem_singleton.mp h)

theorem writeFile_idem (fs : List (String × NewsArticle)) (n : String)
    (a : NewsArticle) : writeFile (writeFile fs n a) n a = writeFile fs n a := by
  unfold writeFile
  by_cases h : fs.any (fun p => p.1 = n)
  · rw [if_pos h]
    rcases List.any_eq_true.mp h with ⟨w, hw, hwn⟩
    have hany : (fs.map fun p => if p.1 = n then (n, a) else p).any
        (fun p => p.1 = n) = true := by
      refine List.any_eq_true.mpr ⟨(n, a), ?_, by simp⟩
      exact List.mem_map.mpr ⟨w, hw, by simp [of_decide_eq_true hwn]⟩
    rw [if_pos hany, List.map_map]
    refine List.map_congr_left fun p _ => ?_
    by_cases hp : p.1 = n <;> simp [hp]
  · rw [if_neg h]
    have hany : (fs ++ [(n, a)]).any (fun p => p.1 = n) = true := by
      refine List.any_eq_true.mpr ⟨(n, a), by simp, by simp⟩
    rw [if_pos hany, List.map_append]
    have hfs : fs.map (fun p => if p.1 = n then (n, a) else p) = fs := by
      conv_rhs => rw [← List.map_id fs]
      refine List.map_congr_left fun p hp => ?_
      have hne : ¬ p.1 = n := fun hpn =>
        h (List.any_eq_true.mpr ⟨p, hp, decide_eq_true hpn⟩)
      simp [hne]
    rw [hfs]
    simp

/-- C8, corrected (amended claim).  When an article's timestamp string
parses (`fromisoformat` succeeds) the saved filename is a pure function of
the timestamp and the ID, independent of the clock, and `open(..., 'w')`
truncates, so persisting the same `(partition, id)` again — even at a
different wall-clock time — overwrites the same single file.  But when the
timestamp does not parse, the filename embeds `datetime.now()`, so
re-processing can create a second distinct file for the same ID (the
counterexample exhibits this). -/
theorem c8_persist_idempotent_same_timestamp (now₁ now₂ : PyDateTime)
    (fs : List (String × NewsArticle)) (a : NewsArticle) :
    ((fromIsoT a.timestamp).isSome = true →
      hiru_save_article now₂ (hiru_save_article now₁ fs a) a
        = hiru_save_article now₁ fs a) ∧
    (fromIsoT a.timestamp = none →
      hiru_article_filename now₁ a = strftimeFileStem now₁ ++ "_" ++ a.id ++ ".json") := by
  constructor
  · intro hsome
    rcases Option.isSome_iff_exists.mp hsome with ⟨dt, hdt⟩
    have hname : hiru_article_filename now₂ a = hiru_article_filename now₁ a := by
      unfold hiru_article_filename
      rw [hdt]
      rfl
    unfold hiru_save_article
    rw [hname]
    exact writeFile_idem _ _ _
  · intro hnone
    unfold hiru_article_filename
    rw [hnone]
    rfl

/-- The listing fixture for the C8 counterexample: one candidate whose
source date text does not parse (so its timestamp falls back to the
clock). -/
def hiruBadDateListing : Nat → List HiruArticleData :=
  fun p => if p = 1 then [⟨"slug-x", "title", "story", "garbage"⟩] else []

/-- A Hiru News crawl of that fixture at clock `now`, starting from an
empty Seen-Set (modelling the claim's crash scenario, where the previous
run persisted the article but died before saving the Seen-Set) and a given
article store. -/
def hiruRunAt (now : PyDateTime) (files : List (String × NewsArticle)) : HiruRun :=
  hiru_scrape_category (fun s => s) now hiruBadDateListing (fun _ => true) 1 [] files

/-- C8, counterexample to the claim as stated: the first run persists the
article under a clock-derived filename; the second run (Seen-Set lost, one
second later) re-derives the same ID `slug-x` but persists a *second
distinct file* for it, so re-processing a previously-persisted-but-unmarked
article does produce two files for one `(partition, id)`. -/
theorem c8_counterexample_second_distinct_file :
    (hiruRunAt ⟨2025, 1, 1, 0, 0, 0⟩ []).core.files.map Prod.fst
      = ["2025-01-01_00_00_00_slug-x.json"] ∧
    (hiruRunAt ⟨2025, 1, 1, 0, 0, 1⟩
        (hiruRunAt ⟨2025, 1, 1, 0, 0, 0⟩ []).core.files).core.files.map Prod.fst
      = ["2025-01-01_00_00_00_slug-x.json", "2025-01-01_00_00_01_slug-x.json"] ∧
    (hiruRunAt ⟨2025, 1, 1, 0, 0, 1⟩
        (hiruRunAt ⟨2025, 1, 1, 0, 0, 0⟩ []).core.files).core.files.map
          (fun e => e.2.id) = ["slug-x", "slug-x"] := by
  refine ⟨by decide, by decide, by decide⟩

/-! ## Claim C7: the minimum-viable-record gate -/

theorem mem_writeFile_self (fs : List (String × NewsArticle)) (n : String)
    (a : NewsArticle) : (n, a) ∈ writeFile fs n a := by
  unfold writeFile
  by_cases hany : fs.any (fun p => p.1 = n)
  · rw [if_pos hany]
    rcases List.any_eq_true.mp hany with ⟨w, hw, hwn⟩
    exact List.mem_map.mpr ⟨w, hw, by simp [of_decide_eq_true hwn]⟩
  · rw [if_neg hany]
    simp

/-- Whether the Lankadeepa detail fetch of a candidate succeeds with both
mandatory fields non-empty (the well-formedness the gate at
scrape_lankadeepa.py line 352 tests). -/
def lanka_detail_ok (detail : String → Option LankaDetail) (c : LankaCandidate) : Bool :=
  match detail c.url with
  | none => false
  | some d => !(d.headline == "") && !(d.content == "")

/-- Every article file a Lankadeepa run adds has non-empty headline and
content (the gate guards every `save_article` call). -/
theorem lanka_process_files_gate (hash : String → String) (now : PyDateTime)
    (detail : String → Option LankaDetail) (category : String)
    (cs : List LankaCandidate) (core : LankaCore) :
    ∀ e ∈ (lanka_process hash now detail category cs core).files,
      e ∈ core.files ∨ (e.2.headline ≠ "" ∧ e.2.content ≠ "") := by
  induction cs generalizing core with
  | nil =>
    intro e he
    exact Or.inl he
  | cons c rest ih =>
    intro e he
    rw [lanka_process] at he
    split at he
    · exact (ih _ e he).imp (fun h => h) (fun h => h)
    · split at he
      · exact (ih _ e he).imp (fun h => h) (fun h => h)
      · rename_i a heq
        split at he
        · rename_i hgate
          rcases ih _ e he with h | h
          · rcases writeFile_mem h with h2 | h2
            · subst h2
              exact Or.inr hgate
            · exact Or.inl h2
          · exact Or.inr h
        · exact (ih _ e he).imp (fun h => h) (fun h => h)

/-- Every ID a Lankadeepa run adds to the Seen-Set belongs to a candidate
whose detail fetch succeeded with non-empty headline and content. -/
theorem lanka_process_marks_gate (hash : String → String) (now : PyDateTime)
    (detail : String → Option LankaDetail) (category : String)
    (cs : List LankaCandidate) (core : LankaCore) :
    ∀ i ∈ (lanka_process hash now detail category cs core).existing,
      i ∈ core.existing ∨
        ∃ c ∈ cs, hash c.url = i ∧ lanka_detail_ok detail c = true := by
  induction cs generalizing core with
  | nil =>
    intro i hi
    exact Or.inl hi
  | cons c rest ih =>
    intro i hi
    rw [lanka_process] at hi
    split at hi
    · rcases ih _ i hi with hmem | ⟨w, hw, hwi⟩
      · exact Or.inl hmem
      · exact Or.inr ⟨w, List.mem_cons_of_mem c hw, hwi⟩
    · split at hi
      · rcases ih _ i hi with hmem | ⟨w, hw, hwi⟩
        · exact Or.inl hmem
        · exact Or.inr ⟨w, List.mem_cons_of_mem c hw, hwi⟩
      · rename_i a heq
        have hdok : a.headline ≠ "" → a.content ≠ "" →
            (hash c.url = a.id ∧ lanka_detail_ok detail c = true) := by
          intro hh hc
          unfold lanka_scrape_article at heq
          unfold lanka_detail_ok
          rcases hd : detail c.url with _ | d
          · rw [hd] at heq
            exact Option.noConfusion heq
          · rw [hd] at heq
            have ha := (Option.some.inj heq).symm
            subst ha
            refine ⟨rfl, ?_⟩
            show (!(d.headline == "") && !(d.content == "")) = true
            simp only [Bool.and_eq_true, Bool.not_eq_true', beq_eq_false_iff_ne]
            exact ⟨hh, hc⟩
        split at hi
        · rename_i hgate
          rcases ih _ i hi with hmem | ⟨w, hw, hwi⟩
          · rcases List.mem_cons.mp hmem with hip | hic
            · right
              rcases hdok hgate.1 hgate.2 with ⟨hid, hok⟩
              exact ⟨c, List.mem_cons_self c rest, by rw [hid, ← hip], hok⟩
            · exact Or.inl hic
          · exact Or.inr ⟨w, List.mem_cons_of_mem c hw, hwi⟩
        · rcases ih _ i hi with hmem | ⟨w, hw, hwi⟩
          · exact Or.inl hmem
          · exact Or.inr ⟨w, List.mem_cons_of_mem c hw, hwi⟩

/-- C7, corrected (amended claim).  The gate holds in the Lankadeepa and
ITN scrapers: a Lankadeepa run never persists an article record with empty
headline or content and never marks an ID seen except for a candidate whose
detail passed the gate, and the ITN article scraper returns no article at
all when headline or content is empty.  The Hiru News scraper, however, has
no such gate: an unseen candidate is persisted and marked seen even with
empty headline and empty content. -/
theorem c7_minimum_viable_record_gate (hash : String → String) (now : PyDateTime)
    (detail : String → Option LankaDetail) (category : String)
    (cs : List LankaCandidate) (core : LankaCore)
    (headline content timestamp url : String)
    (slug title date : String) (hcore : HiruCore) :
    (∀ e ∈ (lanka_process hash now detail category cs core).files,
      e ∈ core.files ∨ (e.2.headline ≠ "" ∧ e.2.content ≠ "")) ∧
    (∀ i ∈ (lanka_process hash now detail category cs core).existing,
      i ∈ core.existing ∨
        ∃ c ∈ cs, hash c.url = i ∧ lanka_detail_ok detail c = true) ∧
    (headline = "" ∨ content = "" →
      itn_scrape_individual_article headline content timestamp url = none) ∧
    (hcore.existing.contains (hash slug) = false →
      (hash slug) ∈ (hiru_process_page hash now (fun _ => true)
          [⟨slug, title, "", date⟩] hcore 0).1.existing ∧
      (hiru_article_filename now (hiru_parse_article hash now ⟨slug, title, "", date⟩),
          hiru_parse_article hash now ⟨slug, title, "", date⟩)
        ∈ (hiru_process_page hash now (fun _ => true)
          [⟨slug, title, "", date⟩] hcore 0).1.files) := by
  refine ⟨lanka_process_files_gate hash now detail category cs core,
          lanka_process_marks_gate hash now detail category cs core, ?_, ?_⟩
  · intro hempty
    unfold itn_scrape_individual_article
    rw [if_pos hempty]
  · intro hunseen
    have hid : (hiru_parse_article hash now ⟨slug, title, "", date⟩).id = hash slug := rfl
    rw [hiru_process_page, hid, hunseen]
    rw [if_neg (by simp : ¬ (false = true)), if_pos rfl, hiru_process_page]
    exact ⟨List.mem_cons_self _ _, mem_writeFile_self _ _ _⟩

/-- The Hiru News fixture for the C7 counterexample: a single candidate
whose headline and content are both empty. -/
def hiruEmptyRun : HiruRun :=
  hiru_scrape_category (fun s => s) ⟨2025, 1, 1, 0, 0, 0⟩
    (fun p => if p = 1 then [⟨"slug-e", "", "", ""⟩] else []) (fun _ => true) 1 [] []

/-- C7, counterexample to the claim as stated: the Hiru News scraper
persists a candidate whose detail has empty headline and empty content,
and adds its ID to the Seen-Set. -/
theorem c7_counterexample_hiru_persists_empty :
    hiruEmptyRun.core.files.map (fun e => (e.2.id, e.2.headline, e.2.content))
      = [("slug-e", "", "")] ∧
    hiruEmptyRun.core.existing = ["slug-e"] ∧
    hiruEmptyRun.core.total = 1 := by
  refine ⟨by decide, by decide, by decide⟩

/-! ## Claim C6: early stop on a zero-progress page -/

/-- In the Hiru News pagination loop, starting from a state whose already
requested pages are all below the next page and whose recorded page
results are all non-zero, any page recorded with zero new articles is the
last page ever requested. -/
theorem hiru_go_early_stop (hash : String → String) (now : PyDateTime)
    (listing : Nat → List HiruArticleData) (writeOk : String → Bool) :
    ∀ fuel page st,
      (∀ q ∈ st.requested, q < page) →
      (∀ pr ∈ st.pageResults, pr.2 ≠ 0) →
      ∀ p q, (p, 0) ∈ (hiru_go hash now listing writeOk page fuel st).pageResults →
        q ∈ (hiru_go hash now listing writeOk page fuel st).requested → q ≤ p := by
  intro fuel
  induction fuel with
  | zero =>
    intro page st hreq hzero p q hp _
    exact absurd rfl (hzero (p, 0) hp)
  | succ fuel ih =>
    intro page st hreq hzero p q hp hq
    rw [hiru_go] at hp hq
    by_cases hempty : (listing page).isEmpty
    · rw [if_pos hempty] at hp hq
      exact absurd rfl (hzero (p, 0) hp)
    · rw [if_neg hempty] at hp hq
      by_cases hzero1 : (hiru_process_page hash now writeOk (listing page) { st with
          requested := st.requested ++ [page],
          core := { st.core with events := st.core.events ++ [Event.fetchPage page] } }.core 0).2 = 0
      · rw [if_pos hzero1] at hp hq
        have hp2 : (p, 0) ∈ st.pageResults ++
            [(page, (hiru_process_page hash now writeOk (listing page) { st with
              requested := st.requested ++ [page],
              core := { st.core with events := st.core.events ++ [Event.fetchPage page] } }.core 0).2)] := hp
        rcases List.mem_append.mp hp2 with hin | hin
        · exact absurd rfl (hzero (p, 0) hin)
        · have hpage : p = page := congrArg Prod.fst (List.mem_singleton.mp hin)
          have hq2 : q ∈ st.requested ++ [page] := hq
          rcases List.mem_append.mp hq2 with hqin | hqin
          · exact le_of_lt (hpage ▸ hreq q hqin)
          · rw [List.mem_singleton.mp hqin, hpage]
      · rw [if_neg hzero1] at hp hq
        refine ih (page + 1) _ ?_ ?_ p q hp hq
        · intro r hr
          rcases List.mem_append.mp hr with hrin | hrin
          · exact Nat.lt_succ_of_lt (hreq r hrin)
          · rw [List.mem_singleton.mp hrin]
            exact Nat.lt_succ_self page
        · intro pr hpr
          rcases List.mem_append.mp hpr with hprin | hprin
          · exact hzero pr hprin
          · rw [List.mem_singleton.mp hprin]
            exact hzero1

/-- The page offsets a Lankadeepa gather requests: all of them,
unconditionally. -/
theorem lanka_gather_requested (listing : Nat → Option (List LankaCandidate)) :
    ∀ fuel page, (lanka_gather listing page fuel).1
      = (List.range fuel).map (fun i => (page + i) * 30) := by
  intro fuel
  induction fuel with
  | zero =>
    intro page
    rfl
  | succ fuel ih =>
    intro page
    rw [lanka_gather, List.range_succ_eq_map, List.map_cons]
    have htail : (List.range fuel).map (fun i => (page + (i + 1)) * 30)
        = (List.range fuel).map (fun i => ((page + 1) + i) * 30) := by
      refine List.map_congr_left fun i _ => ?_
      ring_nf
    rcases hl : listing (page * 30) with _ | l
    · simp only [List.map_map]
      rw [ih (page + 1)]
      simp only [Nat.add_zero, Function.comp]
      rw [← htail]
      rfl
    · simp only [List.map_map]
      rw [ih (page + 1)]
      simp only [Nat.add_zero, Function.comp]
      rw [← htail]
      rfl

/-- C6, corrected (amended claim).  The Hiru News crawl does stop at the
first page that yields zero newly-persisted articles: no later page is
ever requested after such a page.  The Lankadeepa crawl does not: it
requests all `num_pages` page offsets up front, before the Seen-Set is
even consulted, so a zero-progress page never prevents later page
requests. -/
theorem c6_early_stop_policies (hash : String → String) (now : PyDateTime)
    (hlisting : Nat → List HiruArticleData) (writeOk : String → Bool)
    (maxPages : Nat) (existing₀ : List String) (files₀ : List (String × NewsArticle))
    (llisting : Nat → Option (List LankaCandidate)) (detail : String → Option LankaDetail)
    (category : String) (numPages : Nat) (lexisting₀ : List String)
    (lfiles₀ : List (String × NewsArticle)) :
    (∀ p q,
      (p, 0) ∈ (hiru_scrape_category hash now hlisting writeOk maxPages
          existing₀ files₀).pageResults →
      q ∈ (hiru_scrape_category hash now hlisting writeOk maxPages
          existing₀ files₀).requested → q ≤ p) ∧
    (lanka_scrape_category hash now llisting detail category numPages
        lexisting₀ lfiles₀).requested = (List.range numPages).map (fun i => i * 30) := by
  constructor
  · exact hiru_go_early_stop hash now hlisting writeOk maxPages 1 _
      (fun q hq => absurd hq (List.not_mem_nil q))
      (fun pr hpr => absurd hpr (List.not_mem_nil pr))
  · show (lanka_gather llisting 0 numPages).1 = _
    rw [lanka_gather_requested llisting numPages 0]
    refine List.map_congr_left fun i _ => ?_
    rw [Nat.zero_add]

/-- The Lankadeepa fixture for the C6 counterexample: page offset 0 lists
one URL already in the Seen-Set; offset 30 lists a fresh URL; details are
well-formed. -/
def lankaSeenFixture : Nat → Option (List LankaCandidate) :=
  fun o => if o = 0 then some [⟨"u1", some "2025-06-22T00:00:00"⟩]
           else some [⟨"u2", some "2025-06-22T00:00:00"⟩]

def lankaSeenFixtureDetail : String → Option LankaDetail :=
  fun _ => some ⟨"H", "C", "2025-06-22T00:00:00"⟩

/-- C6, counterexample to the claim as stated, on the Lankadeepa scraper:
with the Seen-Set already containing page 1's only candidate, a one-page
crawl persists zero new articles (page 1 is a zero-progress page), yet the
two-page crawl still requests page offset 30 — and even persists page 2's
candidate — so pagination did not halt at the zero-progress page. -/
theorem c6_counterexample_lanka_requests_later_page :
    (lanka_scrape_category (fun s => s) ⟨2025, 1, 1, 0, 0, 0⟩ lankaSeenFixture
        lankaSeenFixtureDetail "news" 1 ["u1"] []).core.newCount = 0 ∧
    (lanka_scrape_category (fun s => s) ⟨2025, 1, 1, 0, 0, 0⟩ lankaSeenFixture
        lankaSeenFixtureDetail "news" 2 ["u1"] []).requested = [0, 30] ∧
    (lanka_scrape_category (fun s => s) ⟨2025, 1, 1, 0, 0, 0⟩ lankaSeenFixture
        lankaSeenFixtureDetail "news" 2 ["u1"] []).core.newCount = 1 := by
  refine ⟨by decide, by decide, by decide⟩

/-! ## Claim C2: an ID is marked seen only after its record is written -/

theorem checkSAP_append (l₁ l₂ : List Event) :
    ∀ P, checkSeenAfterPersist P (l₁ ++ l₂)
      = (checkSeenAfterPersist P l₁ &&
          checkSeenAfterPersist (persistedAfter P l₁) l₂) := by
  induction l₁ with
  | nil =>
    intro P
    rfl
  | cons e rest ih =>
    intro P
    cases e <;>
      simp [checkSeenAfterPersist, persistedAfter, ih, Bool.and_assoc]

theorem sapAll_append {a b : List Event} (ha : SeenAfterPersistAll a)
    (hb : SeenAfterPersistAll b) : SeenAfterPersistAll (a ++ b) := by
  intro P
  rw [checkSAP_append, ha P, hb (persistedAfter P a)]
  rfl

theorem sapAll_nil : SeenAfterPersistAll [] := fun _ => rfl

theorem sapAll_fetchPage (p : Nat) : SeenAfterPersistAll [.fetchPage p] := fun _ => rfl

theorem sapAll_skip (i : String) : SeenAfterPersistAll [.skip i] := fun _ => rfl

theorem sapAll_writeFail (i : String) : SeenAfterPersistAll [.writeFail i] := fun _ => rfl

theorem sapAll_detailFail (u : String) : SeenAfterPersistAll [.detailFail u] := fun _ => rfl

theorem sapAll_gateFail (u : String) : SeenAfterPersistAll [.gateFail u] := fun _ => rfl

theorem sapAll_persist_mark (i f : String) :
    SeenAfterPersistAll [.persist i f, .markSeen i] := by
  intro P
  show ((i :: P).contains i && checkSeenAfterPersist (i :: P) []) = true
  simp [List.contains_cons, checkSeenAfterPersist]

theorem hiru_process_page_sap (hash : String → String) (now : PyDateTime)
    (writeOk : String → Bool) :
    ∀ ds (core : HiruCore) pageNew, SeenAfterPersistAll core.events →
      SeenAfterPersistAll
        (hiru_process_page hash now writeOk ds core pageNew).1.events := by
  intro ds
  induction ds with
  | nil =>
    intro core pageNew h
    exact h
  | cons d rest ih =>
    intro core pageNew h
    rw [hiru_process_page]
    split
    · exact ih _ _ (sapAll_append h (sapAll_skip _))
    · split
      · exact ih _ _ (sapAll_append h (sapAll_persist_mark _ _))
      · exact ih _ _ (sapAll_append h (sapAll_writeFail _))

theorem hiru_go_sap (hash : String → String) (now : PyDateTime)
    (listing : Nat → List HiruArticleData) (writeOk : String → Bool) :
    ∀ fuel page (st : HiruRun), SeenAfterPersistAll st.core.events →
      SeenAfterPersistAll
        (hiru_go hash now listing writeOk page fuel st).core.events := by
  intro fuel
  induction fuel with
  | zero =>
    intro page st h
    exact h
  | succ fuel ih =>
    intro page st h
    simp only [hiru_go]
    split
    · exact sapAll_append h (sapAll_fetchPage page)
    · split
      · exact hiru_process_page_sap hash now writeOk _ _ _
          (sapAll_append h (sapAll_fetchPage page))
      · exact ih _ _ (hiru_process_page_sap hash now writeOk _ _ _
          (sapAll_append h (sapAll_fetchPage page)))

theorem lanka_process_sap (hash : String → String) (now : PyDateTime)
    (detail : String → Option LankaDetail) (category : String) :
    ∀ cs (core : LankaCore), SeenAfterPersistAll core.events →
      SeenAfterPersistAll
        (lanka_process hash now detail category cs core).events := by
  intro cs
  induction cs with
  | nil =>
    intro core h
    exact h
  | cons c rest ih =>
    intro core h
    rw [lanka_process]
    split
    · exact ih _ (sapAll_append h (sapAll_skip _))
    · split
      · exact ih _ (sapAll_append h (sapAll_detailFail _))
      · split
        · exact ih _ (sapAll_append h (sapAll_persist_mark _ _))
        · exact ih _ (sapAll_append h (sapAll_gateFail _))

theorem nf_process_arts_sap (now : PyDateTime) (writeOk : String → Bool) :
    ∀ arts existing newIds (st : NfState), SeenAfterPersistAll st.events →
      SeenAfterPersistAll
        (nf_process_arts now writeOk arts existing newIds st).events := by
  intro arts
  induction arts with
  | nil =>
    intro existing newIds st h
    rw [nf_process_arts]
    split
    · exact h
    · exact h
  | cons a rest ih =>
    intro existing newIds st h
    rw [nf_process_arts]
    split
    · exact ih _ _ _ (sapAll_append h (sapAll_skip _))
    · split
      · exact ih _ _ _ (sapAll_append h (sapAll_persist_mark _ _))
      · exact sapAll_append h (sapAll_writeFail _)

theorem nf_go_sap (now : PyDateTime) (writeOk : String → Bool)
    (listing : Nat → List NewsArticle) :
    ∀ fuel page (st : NfState), SeenAfterPersistAll st.events →
      SeenAfterPersistAll (nf_go now writeOk listing page fuel st).events := by
  intro fuel
  induction fuel with
  | zero =>
    intro page st h
    exact h
  | succ fuel ih =>
    intro page st h
    simp only [nf_go]
    split
    · exact h
    · split
      · exact ih _ _ (sapAll_append h (sapAll_fetchPage page))
      · exact ih _ _ (nf_process_arts_sap now writeOk _ _ _ _
          (sapAll_append h (sapAll_fetchPage page)))

/-- C2, confirmed.  In every reachable trace of every one of the three
crawls, scanning left to right, every `markSeen i` event is preceded by a
`persist i` event: an ID reaches the in-memory Seen-Set — and hence the
Seen-Set file, which is only ever written from it — only after the
corresponding article record has been written, and never for a candidate
whose fetch, gate or write failed (such candidates produce no `persist`
and no `markSeen`). -/
theorem c2_seen_only_after_persist (hash : String → String) (now : PyDateTime)
    (hlisting : Nat → List HiruArticleData) (writeOk : String → Bool)
    (maxPages : Nat) (existing₀ : List String) (files₀ : List (String × NewsArticle))
    (llisting : Nat → Option (List LankaCandidate)) (detail : String → Option LankaDetail)
    (category : String) (numPages : Nat) (lexisting₀ : List String)
    (lfiles₀ : List (String × NewsArticle))
    (nnow : PyDateTime) (nwriteOk : String → Bool) (nlisting : Nat → List NewsArticle)
    (nmaxPages : Nat) (seenFile₀ : Option (List String))
    (nfiles₀ : List (String × NewsArticle)) :
    checkSeenAfterPersist [] (hiru_scrape_category hash now hlisting writeOk
        maxPages existing₀ files₀).core.events = true ∧
    checkSeenAfterPersist [] (lanka_scrape_category hash now llisting detail
        category numPages lexisting₀ lfiles₀).core.events = true ∧
    checkSeenAfterPersist [] (nf_scrape_single_category nnow nwriteOk nlisting
        nmaxPages seenFile₀ nfiles₀).events = true := by
  refine ⟨?_, ?_, ?_⟩
  · exact hiru_go_sap hash now hlisting writeOk maxPages 1 _ sapAll_nil []
  · exact lanka_process_sap hash now detail category _ _ sapAll_nil []
  · exact nf_go_sap nnow nwriteOk nlisting nmaxPages 1 _ sapAll_nil []

/-! ## Claim C1: a second run over an unchanged listing -/

theorem contains_true_iff {l : List String} {x : String} :
    l.contains x = true ↔ x ∈ l := List.elem_iff

/-- Processing a page never removes anything from the in-memory Seen-Set. -/
theorem hiru_process_page_existing_mono (hash : String → String) (now : PyDateTime)
    (writeOk : String → Bool) :
    ∀ ds (core : HiruCore) pageNew x, x ∈ core.existing →
      x ∈ (hiru_process_page hash now writeOk ds core pageNew).1.existing := by
  intro ds
  induction ds with
  | nil =>
    intro core pageNew x hx
    exact hx
  | cons d rest ih =>
    intro core pageNew x hx
    rw [hiru_process_page]
    split
    · exact ih _ _ x hx
    · split
      · exact ih _ _ x (List.mem_cons_of_mem _ hx)
      · exact ih _ _ x hx

/-- With every write succeeding, after a page is processed every candidate
of that page has its ID in the in-memory Seen-Set. -/
theorem hiru_process_page_cover (hash : String → String) (now : PyDateTime) :
    ∀ ds (core : HiruCore) pageNew d, d ∈ ds →
      hash d.seourltitle ∈
        (hiru_process_page hash now (fun _ => true) ds core pageNew).1.existing := by
  intro ds
  induction ds with
  | nil =>
    intro core pageNew d hd
    exact absurd hd (List.not_mem_nil d)
  | cons d0 rest ih =>
    intro core pageNew d hd
    rcases List.mem_cons.mp hd with hde | hdr
    · subst hde
      rw [hiru_process_page]
      split
      · rename_i hseen
        exact hiru_process_page_existing_mono hash now (fun _ => true) rest _ _ _
          (contains_true_iff.mp hseen)
      · split
        · exact hiru_process_page_existing_mono hash now (fun _ => true) rest _ _ _
            (List.mem_cons_self _ _)
        · rename_i hw
          exact absurd rfl hw
    · rw [hiru_process_page]
      split
      · exact ih _ _ d hdr
      · split
        · exact ih _ _ d hdr
        · exact ih _ _ d hdr

/-- When every candidate of a page is already in the Seen-Set, processing
the page only counts skips: the Seen-Set, the files, the totals and the
page's new-count are untouched. -/
theorem hiru_process_page_allseen (hash : String → String) (now : PyDateTime)
    (writeOk : String → Bool) :
    ∀ ds (core : HiruCore) pageNew,
      (∀ d ∈ ds, hash d.seourltitle ∈ core.existing) →
      (hiru_process_page hash now writeOk ds core pageNew).1.existing = core.existing ∧
      (hiru_process_page hash now writeOk ds core pageNew).1.files = core.files ∧
      (hiru_process_page hash now writeOk ds core pageNew).1.total = core.total ∧
      (hiru_process_page hash now writeOk ds core pageNew).2 = pageNew := by
  intro ds
  induction ds with
  | nil =>
    intro core pageNew _
    exact ⟨rfl, rfl, rfl, rfl⟩
  | cons d rest ih =>
    intro core pageNew hall
    rw [hiru_process_page]
    split
    · exact ih _ _ (fun d2 hd2 => hall d2 (List.mem_cons_of_mem d hd2))
    · rename_i hseen
      exact absurd (contains_true_iff.mpr (hall d (List.mem_cons_self d rest))) hseen
    -- (unreachable write-fail branch: the seen test already failed)

/-- The pagination loop never removes anything from the in-memory
Seen-Set. -/
theorem hiru_go_existing_mono (hash : String → String) (now : PyDateTime)
    (listing : Nat → List HiruArticleData) (writeOk : String → Bool) :
    ∀ fuel page (st : HiruRun) x, x ∈ st.core.existing →
      x ∈ (hiru_go hash now listing writeOk page fuel st).core.existing := by
  intro fuel
  induction fuel with
  | zero =>
    intro page st x hx
    exact hx
  | succ fuel ih =>
    intro page st x hx
    simp only [hiru_go]
    split
    · exact hx
    · split
      · exact hiru_process_page_existing_mono hash now writeOk _ _ _ x hx
      · exact ih _ _ x (hiru_process_page_existing_mono hash now writeOk _ _ _ x hx)

/-- After a Hiru News run with all writes succeeding, every candidate of
the first page (when there is one) is in the final Seen-Set. -/
theorem hiru_run_covers_page1 (hash : String → String) (now : PyDateTime)
    (listing : Nat → List HiruArticleData) (maxPages : Nat)
    (existing₀ : List String) (files₀ : List (String × NewsArticle))
    (hM : 1 ≤ maxPages) (hne : ¬ (listing 1).isEmpty = true) :
    ∀ d ∈ listing 1,
      hash d.seourltitle ∈ (hiru_scrape_category hash now listing (fun _ => true)
        maxPages existing₀ files₀).core.existing := by
  intro d hd
  unfold hiru_scrape_category
  rcases Nat.exists_eq_add_of_le hM with ⟨fuel, hfuel⟩
  rw [hfuel, Nat.add_comm]
  simp only [hiru_go]
  rw [if_neg hne]
  split
  · exact hiru_process_page_cover hash now (listing 1) _ _ d hd
  · exact hiru_go_existing_mono hash now listing (fun _ => true) fuel 2 _ _
      (hiru_process_page_cover hash now (listing 1) _ _ d hd)

/-- A second Hiru News run whose starting Seen-Set already contains every
candidate of page 1 persists nothing and leaves the files unchanged: page
1 yields zero new articles and pagination stops there. -/
theorem hiru_second_run_nothing_new (hash : String → String) (now : PyDateTime)
    (listing : Nat → List HiruArticleData) (writeOk : String → Bool)
    (maxPages : Nat) (existing₀ : List String) (files₀ : List (String × NewsArticle))
    (hcov : ∀ d ∈ listing 1, hash d.seourltitle ∈ existing₀) :
    (hiru_scrape_category hash now listing writeOk maxPages existing₀ files₀).core.total
      = 0 ∧
    (hiru_scrape_category hash now listing writeOk maxPages existing₀ files₀).core.files
      = files₀ := by
  unfold hiru_scrape_category
  cases maxPages with
  | zero =>
    exact ⟨rfl, rfl⟩
  | succ fuel =>
    simp only [hiru_go]
    split
    · exact ⟨rfl, rfl⟩
    · rcases hiru_process_page_allseen hash now writeOk (listing 1)
          ⟨existing₀, files₀, [], 0, 0, [] ++ [Event.fetchPage 1]⟩ 0 hcov with
        ⟨hex, hfi, hto, hpn⟩
      rw [if_pos hpn]
      exact ⟨hto, hfi⟩

/-- Processing candidates never removes anything from the Lankadeepa
in-memory Seen-Set. -/
theorem lanka_process_existing_mono (hash : String → String) (now : PyDateTime)
    (detail : String → Option LankaDetail) (category : String) :
    ∀ cs (core : LankaCore) x, x ∈ core.existing →
      x ∈ (lanka_process hash now detail category cs core).existing := by
  intro cs
  induction cs with
  | nil =>
    intro core x hx
    exact hx
  | cons c rest ih =>
    intro core x hx
    rw [lanka_process]
    split
    · exact ih _ x hx
    · split
      · exact ih _ x hx
      · split
        · exact ih _ x (List.mem_cons_of_mem _ hx)
        · exact ih _ x hx

/-- When every candidate's detail is well-formed, after processing every
candidate's ID is in the Seen-Set. -/
theorem lanka_process_cover (hash : String → String) (now : PyDateTime)
    (detail : String → Option LankaDetail) (category : String) :
    ∀ cs (core : LankaCore),
      (∀ c ∈ cs, lanka_detail_ok detail c = true) →
      ∀ c ∈ cs, hash c.url ∈ (lanka_process hash now detail category cs core).existing := by
  intro cs
  induction cs with
  | nil =>
    intro core _ c hc
    exact absurd hc (List.not_mem_nil c)
  | cons c0 rest ih =>
    intro core hok c hc
    rcases List.mem_cons.mp hc with hce | hcr
    · subst hce
      have hcok := hok c (List.mem_cons_self c rest)
      rw [lanka_process]
      split
      · rename_i hseen
        exact lanka_process_existing_mono hash now detail category rest _ _
          (contains_true_iff.mp hseen)
      · split
        · rename_i heq
          exfalso
          unfold lanka_scrape_article at heq
          rcases hd : detail c.url with _ | d
          · have hfalse : lanka_detail_ok detail c = false := by
              unfold lanka_detail_ok
              rw [hd]
            rw [hfalse] at hcok
            exact Bool.noConfusion hcok
          · rw [hd] at heq
            exact Option.noConfusion heq
        · rename_i a heq
          split
          · refine lanka_process_existing_mono hash now detail category rest _ _ ?_
            have hid : a.id = hash c.url := by
              unfold lanka_scrape_article at heq
              rcases hd : detail c.url with _ | d
              · rw [hd] at heq
                exact Option.noConfusion heq
              · rw [hd] at heq
                rw [← Option.some.inj heq]
            rw [← hid]
            exact List.mem_cons_self _ _
          · rename_i hgate
            exfalso
            unfold lanka_scrape_article at heq
            unfold lanka_detail_ok at hcok
            rcases hd : detail c.url with _ | d
            · have hcok2 : (false : Bool) = true := by rw [← hcok, hd]
              exact Bool.noConfusion hcok2
            · rw [hd] at heq
              rw [hd] at hcok
              have ha := (Option.some.inj heq).symm
              subst ha
              refine hgate ⟨?_, ?_⟩
              · show ¬ d.headline = ""
                have hb := (Bool.and_eq_true _ _).mp hcok
                simpa using hb.1
              · show ¬ d.content = ""
                have hb := (Bool.and_eq_true _ _).mp hcok
                simpa using hb.2
    · rw [lanka_process]
      have hok' : ∀ c2 ∈ rest, lanka_detail_ok detail c2 = true :=
        fun c2 hc2 => hok c2 (List.mem_cons_of_mem c0 hc2)
      split
      · exact ih _ hok' c hcr
      · split
        · exact ih _ hok' c hcr
        · split
          · exact ih _ hok' c hcr
          · exact ih _ hok' c hcr

/-- When every candidate is already in the Seen-Set, processing only
counts skips. -/
theorem lanka_process_allseen (hash : String → String) (now : PyDateTime)
    (detail : String → Option LankaDetail) (category : String) :
    ∀ cs (core : LankaCore),
      (∀ c ∈ cs, hash c.url ∈ core.existing) →
      (lanka_process hash now detail category cs core).existing = core.existing ∧
      (lanka_process hash now detail category cs core).files = core.files ∧
      (lanka_process hash now detail category cs core).newCount = core.newCount ∧
      (lanka_process hash now detail category cs core).skipped
        = core.skipped + cs.length := by
  intro cs
  induction cs with
  | nil =>
    intro core _
    exact ⟨rfl, rfl, rfl, rfl⟩
  | cons c rest ih =>
    intro core hall
    rw [lanka_process]
    split
    · rcases ih { core with
                    skipped := core.skipped + 1,
                    events := core.events ++ [Event.skip (hash c.url)] }
          (fun c2 hc2 => hall c2 (List.mem_cons_of_mem c hc2)) with
        ⟨h1, h2, h3, h4⟩
      refine ⟨h1, h2, h3, ?_⟩
      rw [h4]
      show core.skipped + 1 + rest.length = core.skipped + (rest.length + 1)
      omega
    · rename_i hseen
      exact absurd (contains_true_iff.mpr (hall c (List.mem_cons_self c rest))) hseen

/-- A second Lankadeepa run over the same listing and detail oracles, with
all details well-formed, persists nothing, changes no files and reports
every unique candidate as skipped. -/
theorem lanka_second_run_all_skipped (hash : String → String) (now₁ now₂ : PyDateTime)
    (listing : Nat → Option (List LankaCandidate)) (detail : String → Option LankaDetail)
    (category : String) (numPages : Nat) (existing₀ : List String)
    (files₀ : List (String × NewsArticle))
    (hok : ∀ c ∈ lanka_dedup (lanka_gather listing 0 numPages).2 [],
      lanka_detail_ok detail c = true) :
    (lanka_scrape_category hash now₂ listing detail category numPages
        (lanka_scrape_category hash now₁ listing detail category numPages
          existing₀ files₀).core.existing
        (lanka_scrape_category hash now₁ listing detail category numPages
          existing₀ files₀).core.files).core.newCount = 0 ∧
    (lanka_scrape_category hash now₂ listing detail category numPages
        (lanka_scrape_category hash now₁ listing detail category numPages
          existing₀ files₀).core.existing
        (lanka_scrape_category hash now₁ listing detail category numPages
          existing₀ files₀).core.files).core.files
      = (lanka_scrape_category hash now₁ listing detail category numPages
          existing₀ files₀).core.files ∧
    (lanka_scrape_category hash now₂ listing detail category numPages
        (lanka_scrape_category hash now₁ listing detail category numPages
          existing₀ files₀).core.existing
        (lanka_scrape_category hash now₁ listing detail category numPages
          existing₀ files₀).core.files).core.skipped
      = (lanka_scrape_category hash now₁ listing detail category numPages
          existing₀ files₀).candidates.length := by
  have hcov : ∀ c ∈ lanka_dedup (lanka_gather listing 0 numPages).2 [],
      hash c.url ∈ (lanka_scrape_category hash now₁ listing detail category numPages
        existing₀ files₀).core.existing :=
    lanka_process_cover hash now₁ detail category _ _ hok
  rcases lanka_process_allseen hash now₂ detail category
      (lanka_dedup (lanka_gather listing 0 numPages).2 [])
      ⟨(lanka_scrape_category hash now₁ listing detail category numPages
          existing₀ files₀).core.existing,
        (lanka_scrape_category hash now₁ listing detail category numPages
          existing₀ files₀).core.files, 0, 0, []⟩ hcov with ⟨h1, h2, h3, h4⟩
  refine ⟨h3, h2, ?_⟩
  show (lanka_process hash now₂ detail category
      (lanka_dedup (lanka_gather listing 0 numPages).2 [])
      ⟨(lanka_scrape_category hash now₁ listing detail category numPages
          existing₀ files₀).core.existing,
        (lanka_scrape_category hash now₁ listing detail category numPages
          existing₀ files₀).core.files, 0, 0, []⟩).skipped
    = (lanka_dedup (lanka_gather listing 0 numPages).2 []).length
  rw [h4]
  exact Nat.zero_add _

/-- With every write succeeding, after `save_articles_by_category`'s
per-article loop both everything that was in the loaded set and every
processed article's ID are in the set the Seen-Set file yields. -/
theorem nf_process_arts_cover (now : PyDateTime) :
    ∀ arts existing newIds (st : NfState),
      (newIds = [] → nf_loaded st.seenFile = existing) →
      ∀ x, (x ∈ existing ∨ ∃ a ∈ arts, a.id = x) →
        x ∈ nf_loaded
          (nf_process_arts now (fun _ => true) arts existing newIds st).seenFile := by
  intro arts
  induction arts with
  | nil =>
    intro existing newIds st hinv x hx
    rcases hx with hx | ⟨a, ha, _⟩
    · rw [nf_process_arts]
      split
      · rename_i hni
        rw [hinv (List.isEmpty_iff.mp hni)]
        exact hx
      · exact hx
    · exact absurd ha (List.not_mem_nil a)
  | cons a rest ih =>
    intro existing newIds st hinv x hx
    rw [nf_process_arts]
    split
    · rename_i hseen
      refine ih existing newIds { st with
                                    skipped := st.skipped + 1,
                                    events := st.events ++ [Event.skip a.id] } hinv x ?_
      rcases hx with hx | ⟨b, hb, hbx⟩
      · exact Or.inl hx
      · rcases List.mem_cons.mp hb with hbe | hbr
        · subst hbe
          rw [← hbx]
          exact Or.inl (contains_true_iff.mp hseen)
        · exact Or.inr ⟨b, hbr, hbx⟩
    · split
      · refine ih (a.id :: existing) (a.id :: newIds)
          { st with
              files := writeFile st.files (nf_filename now a.timestamp a.id) a,
              newCount := st.newCount + 1,
              events := st.events ++
                [Event.persist a.id (nf_filename now a.timestamp a.id),
                  Event.markSeen a.id] }
          (fun hcontra => List.noConfusion hcontra) x ?_
        rcases hx with hx | ⟨b, hb, hbx⟩
        · exact Or.inl (List.mem_cons_of_mem _ hx)
        · rcases List.mem_cons.mp hb with hbe | hbr
          · subst hbe
            rw [← hbx]
            exact Or.inl (List.mem_cons_self _ _)
          · exact Or.inr ⟨b, hbr, hbx⟩
      · rename_i hw
        exact absurd rfl hw

/-- With every write succeeding the run is never aborted. -/
theorem nf_process_arts_no_abort (now : PyDateTime) :
    ∀ arts existing newIds (st : NfState),
      (nf_process_arts now (fun _ => true) arts existing newIds st).aborted
        = st.aborted := by
  intro arts
  induction arts with
  | nil =>
    intro existing newIds st
    rw [nf_process_arts]
    split
    · rfl
    · rfl
  | cons a rest ih =>
    intro existing newIds st
    rw [nf_process_arts]
    split
    · exact ih _ _ _
    · split
      · exact ih _ _ _
      · rename_i hw
        exact absurd rfl hw

/-- After the page loop (all writes succeeding), the Seen-Set file covers
everything it covered before plus every article listed on the pages the
loop visits. -/
theorem nf_go_cover (now : PyDateTime) (listing : Nat → List NewsArticle) :
    ∀ fuel page (st : NfState), st.aborted = false →
      (∀ x, x ∈ nf_loaded st.seenFile →
        x ∈ nf_loaded (nf_go now (fun _ => true) listing page fuel st).seenFile) ∧
      (∀ i, i < fuel → ∀ a ∈ listing (page + i),
        a.id ∈ nf_loaded (nf_go now (fun _ => true) listing page fuel st).seenFile) := by
  intro fuel
  induction fuel with
  | zero =>
    intro page st _
    exact ⟨fun x hx => hx, fun i hi => absurd hi (Nat.not_lt_zero i)⟩
  | succ fuel ih =>
    intro page st hab
    simp only [nf_go]
    rw [if_neg (by rw [hab]; exact Bool.false_ne_true)]
    by_cases hempty : (listing page).isEmpty
    · rw [if_pos hempty]
      rcases ih (page + 1) { st with events := st.events ++ [Event.fetchPage page] }
          (by exact hab) with ⟨hmono, hcov⟩
      refine ⟨hmono, ?_⟩
      intro i hi a ha
      cases i with
      | zero =>
        rw [Nat.add_zero, List.isEmpty_iff.mp hempty] at ha
        exact absurd ha (List.not_mem_nil a)
      | succ j =>
        have hpage : page + (j + 1) = (page + 1) + j := by omega
        rw [hpage] at ha
        exact hcov j (Nat.lt_of_succ_lt_succ hi) a ha
    · rw [if_neg hempty]
      have hab2 : (nf_save_articles_by_category now (fun _ => true) (listing page)
          { st with events := st.events ++ [Event.fetchPage page] }).aborted = false := by
        unfold nf_save_articles_by_category
        rw [nf_process_arts_no_abort]
        exact hab
      rcases ih (page + 1) _ hab2 with ⟨hmono, hcov⟩
      constructor
      · intro x hx
        refine hmono x ?_
        exact nf_process_arts_cover now (listing page) _ [] _ (fun _ => rfl) x (Or.inl hx)
      · intro i hi a ha
        cases i with
        | zero =>
          refine hmono a.id ?_
          exact nf_process_arts_cover now (listing page) _ [] _ (fun _ => rfl) a.id
            (Or.inr ⟨a, by simpa using ha, rfl⟩)
        | succ j =>
          have hpage : page + (j + 1) = (page + 1) + j := by omega
          rw [hpage] at ha
          exact hcov j (Nat.lt_of_succ_lt_succ hi) a ha

/-- Total number of articles the listing returns over a window of pages. -/
def nf_listed_count (listing : Nat → List NewsArticle) : Nat → Nat → Nat
  | _, 0 => 0
  | page, fuel + 1 => (listing page).length + nf_listed_count listing (page + 1) fuel

/-- When every article of a page is already in the loaded set,
`save_articles_by_category` only counts skips. -/
theorem nf_process_arts_allskip (now : PyDateTime) (writeOk : String → Bool) :
    ∀ arts existing (st : NfState),
      (∀ a ∈ arts, a.id ∈ existing) →
      (nf_process_arts now writeOk arts existing [] st).seenFile = st.seenFile ∧
      (nf_process_arts now writeOk arts existing [] st).files = st.files ∧
      (nf_process_arts now writeOk arts existing [] st).newCount = st.newCount ∧
      (nf_process_arts now writeOk arts existing [] st).skipped
        = st.skipped + arts.length ∧
      (nf_process_arts now writeOk arts existing [] st).aborted = st.aborted := by
  intro arts
  induction arts with
  | nil =>
    intro existing st _
    exact ⟨rfl, rfl, rfl, rfl, rfl⟩
  | cons a rest ih =>
    intro existing st hall
    rw [nf_process_arts]
    split
    · rcases ih existing { st with
                            skipped := st.skipped + 1,
                            events := st.events ++ [Event.skip a.id] }
          (fun b hb => hall b (List.mem_cons_of_mem a hb)) with ⟨h1, h2, h3, h4, h5⟩
      refine ⟨h1, h2, h3, ?_, h5⟩
      rw [h4]
      show st.skipped + 1 + rest.length = st.skipped + (rest.length + 1)
      omega
    · rename_i hseen
      exact absurd (contains_true_iff.mpr (hall a (List.mem_cons_self a rest))) hseen

/-- When every listed article of the visited pages is already covered by
the Seen-Set file, the page loop persists nothing, keeps all state and
skips every listed article. -/
theorem nf_go_allskip (now : PyDateTime) (writeOk : String → Bool)
    (listing : Nat → List NewsArticle) :
    ∀ fuel page (st : NfState), st.aborted = false →
      (∀ i, i < fuel → ∀ a ∈ listing (page + i), a.id ∈ nf_loaded st.seenFile) →
      (nf_go now writeOk listing page fuel st).seenFile = st.seenFile ∧
      (nf_go now writeOk listing page fuel st).files = st.files ∧
      (nf_go now writeOk listing page fuel st).newCount = st.newCount ∧
      (nf_go now writeOk listing page fuel st).skipped
        = st.skipped + nf_listed_count listing page fuel ∧
      (nf_go now writeOk listing page fuel st).aborted = false := by
  intro fuel
  induction fuel with
  | zero =>
    intro page st hab _
    exact ⟨rfl, rfl, rfl, (Nat.add_zero _).symm, hab⟩
  | succ fuel ih =>
    intro page st hab hall
    simp only [nf_go]
    rw [if_neg (by rw [hab]; exact Bool.false_ne_true)]
    by_cases hempty : (listing page).isEmpty
    · rw [if_pos hempty]
      rcases ih (page + 1) { st with events := st.events ++ [Event.fetchPage page] }
          (by exact hab)
          (by
            intro i hi a ha
            have hpage : (page + 1) + i = page + (i + 1) := by omega
            rw [hpage] at ha
            exact hall (i + 1) (Nat.succ_lt_succ hi) a ha) with ⟨h1, h2, h3, h4, h5⟩
      refine ⟨h1, h2, h3, ?_, h5⟩
      rw [h4]
      show st.skipped + nf_listed_count listing (page + 1) fuel
        = st.skipped + ((listing page).length + nf_listed_count listing (page + 1) fuel)
      have hlen : (listing page).length = 0 := by
        rw [List.isEmpty_iff.mp hempty]
        rfl
      omega
    · rw [if_neg hempty]
      have hall0 : ∀ a ∈ listing page, a.id ∈ nf_loaded st.seenFile := by
        intro a ha
        have h0 : page + 0 = page := Nat.add_zero page
        exact hall 0 (Nat.succ_pos fuel) a (by rw [h0]; exact ha)
      rcases nf_process_arts_allskip now writeOk (listing page)
          (nf_loaded { st with
                         events := st.events ++ [Event.fetchPage page] }.seenFile)
          { st with events := st.events ++ [Event.fetchPage page] } hall0 with
        ⟨g1, g2, g3, g4, g5⟩
      have hst2ab : (nf_save_articles_by_category now writeOk (listing page)
          { st with events := st.events ++ [Event.fetchPage page] }).aborted = false := by
        unfold nf_save_articles_by_category
        rw [g5]
        exact hab
      rcases ih (page + 1) (nf_save_articles_by_category now writeOk (listing page)
          { st with events := st.events ++ [Event.fetchPage page] }) hst2ab
          (by
            intro i hi a ha
            have hpage : (page + 1) + i = page + (i + 1) := by omega
            rw [hpage] at ha
            unfold nf_save_articles_by_category
            rw [g1]
            exact hall (i + 1) (Nat.succ_lt_succ hi) a ha) with ⟨h1, h2, h3, h4, h5⟩
      unfold nf_save_articles_by_category at h1 h2 h3 h4
      rw [g1] at h1
      rw [g2] at h2
      rw [g3] at h3
      rw [g4] at h4
      refine ⟨h1, h2, h3, ?_, h5⟩
      unfold nf_save_articles_by_category
      rw [h4]
      show st.skipped + (listing page).length + nf_listed_count listing (page + 1) fuel
        = st.skipped + ((listing page).length + nf_listed_count listing (page + 1) fuel)
      omega

/-- A second News First run over the same listing, with all writes
succeeding, persists nothing, changes no files and skips every listed
article. -/
theorem nf_second_run_all_skipped (now₁ now₂ : PyDateTime)
    (listing : Nat → List NewsArticle) (maxPages : Nat)
    (seenFile₀ : Option (List String)) (files₀ : List (String × NewsArticle)) :
    (nf_scrape_single_category now₂ (fun _ => true) listing maxPages
        (nf_scrape_single_category now₁ (fun _ => true) listing maxPages
          seenFile₀ files₀).seenFile
        (nf_scrape_single_category now₁ (fun _ => true) listing maxPages
          seenFile₀ files₀).files).newCount = 0 ∧
    (nf_scrape_single_category now₂ (fun _ => true) listing maxPages
        (nf_scrape_single_category now₁ (fun _ => true) listing maxPages
          seenFile₀ files₀).seenFile
        (nf_scrape_single_category now₁ (fun _ => true) listing maxPages
          seenFile₀ files₀).files).files
      = (nf_scrape_single_category now₁ (fun _ => true) listing maxPages
          seenFile₀ files₀).files ∧
    (nf_scrape_single_category now₂ (fun _ => true) listing maxPages
        (nf_scrape_single_category now₁ (fun _ => true) listing maxPages
          seenFile₀ files₀).seenFile
        (nf_scrape_single_category now₁ (fun _ => true) listing maxPages
          seenFile₀ files₀).files).skipped = nf_listed_count listing 1 maxPages := by
  have hcov := (nf_go_cover now₁ listing maxPages 1
    ⟨seenFile₀, files₀, 0, 0, [], false⟩ rfl).2
  rcases nf_go_allskip now₂ (fun _ => true) listing maxPages 1
      ⟨(nf_scrape_single_category now₁ (fun _ => true) listing maxPages
          seenFile₀ files₀).seenFile,
        (nf_scrape_single_category now₁ (fun _ => true) listing maxPages
          seenFile₀ files₀).files, 0, 0, [], false⟩ rfl
      (fun i hi a ha => hcov i hi a ha) with ⟨h1, h2, h3, h4, h5⟩
  refine ⟨h3, h2, ?_⟩
  show (nf_go now₂ (fun _ => true) listing 1 maxPages
      ⟨(nf_scrape_single_category now₁ (fun _ => true) listing maxPages
          seenFile₀ files₀).seenFile,
        (nf_scrape_single_category now₁ (fun _ => true) listing maxPages
          seenFile₀ files₀).files, 0, 0, [], false⟩).skipped
    = nf_listed_count listing 1 maxPages
  rw [h4]
  exact Nat.zero_add _

/-- C1, corrected (amended claim).  With the same fixed listing presented
to two consecutive runs, every write succeeding, and (for Lankadeepa)
every listed candidate's detail well-formed: the second run persists zero
new article records and leaves the set of persisted article files
unchanged in all three scrapers; the Lankadeepa second run reports all N
unique candidates as already-known (skipped) and the News First second run
reports every listed article as already-known; but the Hiru News second
run stops at its first zero-progress page, so it may examine — and report
as skipped — only the first page's candidates, fewer than N (the
counterexample exhibits this). -/
theorem c1_second_run_persists_nothing
    (hash : String → String) (now₁ now₂ : PyDateTime)
    (hlisting : Nat → List HiruArticleData) (maxPages : Nat)
    (hexisting₀ : List String) (hfiles₀ : List (String × NewsArticle))
    (llisting : Nat → Option (List LankaCandidate))
    (detail : String → Option LankaDetail) (category : String) (numPages : Nat)
    (lexisting₀ : List String) (lfiles₀ : List (String × NewsArticle))
    (nlisting : Nat → List NewsArticle) (nmaxPages : Nat)
    (nseenFile₀ : Option (List String)) (nfiles₀ : List (String × NewsArticle))
    (hok : ∀ c ∈ lanka_dedup (lanka_gather llisting 0 numPages).2 [],
      lanka_detail_ok detail c = true) :
    (hiru_scrape_category hash now₂ hlisting (fun _ => true) maxPages
        (hiru_scrape_category hash now₁ hlisting (fun _ => true) maxPages
          hexisting₀ hfiles₀).core.existing
        (hiru_scrape_category hash now₁ hlisting (fun _ => true) maxPages
          hexisting₀ hfiles₀).core.files).core.total = 0 ∧
    (hiru_scrape_category hash now₂ hlisting (fun _ => true) maxPages
        (hiru_scrape_category hash now₁ hlisting (fun _ => true) maxPages
          hexisting₀ hfiles₀).core.existing
        (hiru_scrape_category hash now₁ hlisting (fun _ => true) maxPages
          hexisting₀ hfiles₀).core.files).core.files
      = (hiru_scrape_category hash now₁ hlisting (fun _ => true) maxPages
          hexisting₀ hfiles₀).core.files ∧
    (lanka_scrape_category hash now₂ llisting detail category numPages
        (lanka_scrape_category hash now₁ llisting detail category numPages
          lexisting₀ lfiles₀).core.existing
        (lanka_scrape_category hash now₁ llisting detail category numPages
          lexisting₀ lfiles₀).core.files).core.newCount = 0 ∧
    (lanka_scrape_category hash now₂ llisting detail category numPages
        (lanka_scrape_category hash now₁ llisting detail category numPages
          lexisting₀ lfiles₀).core.existing
        (lanka_scrape_category hash now₁ llisting detail category numPages
          lexisting₀ lfiles₀).core.files).core.files
      = (lanka_scrape_category hash now₁ llisting detail category numPages
          lexisting₀ lfiles₀).core.files ∧
    (lanka_scrape_category hash now₂ llisting detail category numPages
        (lanka_scrape_category hash now₁ llisting detail category numPages
          lexisting₀ lfiles₀).core.existing
        (lanka_scrape_category hash now₁ llisting detail category numPages
          lexisting₀ lfiles₀).core.files).core.skipped
      = (lanka_scrape_category hash now₁ llisting detail category numPages
          lexisting₀ lfiles₀).candidates.length ∧
    (nf_scrape_single_category now₂ (fun _ => true) nlisting nmaxPages
        (nf_scrape_single_category now₁ (fun _ => true) nlisting nmaxPages
          nseenFile₀ nfiles₀).seenFile
        (nf_scrape_single_category now₁ (fun _ => true) nlisting nmaxPages
          nseenFile₀ nfiles₀).files).newCount = 0 ∧
    (nf_scrape_single_category now₂ (fun _ => true) nlisting nmaxPages
        (nf_scrape_single_category now₁ (fun _ => true) nlisting nmaxPages
          nseenFile₀ nfiles₀).seenFile
        (nf_scrape_single_category now₁ (fun _ => true) nlisting nmaxPages
          nseenFile₀ nfiles₀).files).files
      = (nf_scrape_single_category now₁ (fun _ => true) nlisting nmaxPages
          nseenFile₀ nfiles₀).files ∧
    (nf_scrape_single_category now₂ (fun _ => true) nlisting nmaxPages
        (nf_scrape_single_category now₁ (fun _ => true) nlisting nmaxPages
          nseenFile₀ nfiles₀).seenFile
        (nf_scrape_single_category now₁ (fun _ => true) nlisting nmaxPages
          nseenFile₀ nfiles₀).files).skipped = nf_listed_count nlisting 1 nmaxPages := by
  have hhiru : (hiru_scrape_category hash now₂ hlisting (fun _ => true) maxPages
      (hiru_scrape_category hash now₁ hlisting (fun _ => true) maxPages
        hexisting₀ hfiles₀).core.existing
      (hiru_scrape_category hash now₁ hlisting (fun _ => true) maxPages
        hexisting₀ hfiles₀).core.files).core.total = 0 ∧
      (hiru_scrape_category hash now₂ hlisting (fun _ => true) maxPages
        (hiru_scrape_category hash now₁ hlisting (fun _ => true) maxPages
          hexisting₀ hfiles₀).core.existing
        (hiru_scrape_category hash now₁ hlisting (fun _ => true) maxPages
          hexisting₀ hfiles₀).core.files).core.files
        = (hiru_scrape_category hash now₁ hlisting (fun _ => true) maxPages
            hexisting₀ hfiles₀).core.files := by
    cases maxPages with
    | zero =>
      exact ⟨rfl, rfl⟩
    | succ m =>
      by_cases hempty : (hlisting 1).isEmpty = true
      · refine hiru_second_run_nothing_new hash now₂ hlisting (fun _ => true) (m + 1)
          _ _ (fun d hd => ?_)
        rw [List.isEmpty_iff.mp hempty] at hd
        exact absurd hd (List.not_mem_nil d)
      · exact hiru_second_run_nothing_new hash now₂ hlisting (fun _ => true) (m + 1)
          _ _ (hiru_run_covers_page1 hash now₁ hlisting (m + 1) hexisting₀ hfiles₀
            (Nat.succ_le_succ (Nat.zero_le m)) hempty)
  rcases lanka_second_run_all_skipped hash now₁ now₂ llisting detail category numPages
      lexisting₀ lfiles₀ hok with ⟨hl1, hl2, hl3⟩
  rcases nf_second_run_all_skipped now₁ now₂ nlisting nmaxPages nseenFile₀ nfiles₀ with
    ⟨hn1, hn2, hn3⟩
  exact ⟨hhiru.1, hhiru.2, hl1, hl2, hl3, hn1, hn2, hn3⟩

/-- Fixed two-page Hiru News listing for the C1 counterexample: N = 2
unique natural keys spread over two pages, details well-formed. -/
def c1cHiruListing : Nat → List HiruArticleData :=
  fun p => if p = 1 then [⟨"key-a", "TA", "CA", "2025-06-26 08:45:42"⟩]
           else if p = 2 then [⟨"key-b", "TB", "CB", "2025-06-26 09:00:00"⟩] else []

def c1cHiruRun1 : HiruRun :=
  hiru_scrape_category (fun s => s) ⟨2025, 7, 1, 0, 0, 0⟩ c1cHiruListing
    (fun _ => true) 5 [] []

def c1cHiruRun2 : HiruRun :=
  hiru_scrape_category (fun s => s) ⟨2025, 7, 2, 0, 0, 0⟩ c1cHiruListing
    (fun _ => true) 5 c1cHiruRun1.core.existing c1cHiruRun1.core.files

/-- C1, counterexample to the claim as stated: the fixed listing holds
N = 2 unique natural keys (one per page, unchanged across runs); the first
Hiru News run persists both, but the second run stops at page 1 (its first
zero-progress page), requests no further page, and reports only 1
candidate as already-known — not all N = 2 as the claim demands. -/
theorem c1_counterexample_hiru_reports_fewer_than_n :
    c1cHiruRun1.core.total = 2 ∧
    c1cHiruRun2.core.total = 0 ∧
    c1cHiruRun2.core.skipped = 1 ∧
    c1cHiruRun2.requested = [1] := by
  refine ⟨by decide, by decide, by decide, by decide⟩

/-- Concrete fixtures for the C1 witness. -/
def c1wHiruListing : Nat → List HiruArticleData :=
  fun p => if p = 1 then [⟨"key-w", "TW", "CW", "2025-06-26 08:45:42"⟩] else []

def c1wLankaListing : Nat → Option (List LankaCandidate) :=
  fun o => if o = 0 then some [⟨"https://www.lankadeepa.lk/news/9", some "2025-06-22T00:00:00"⟩]
           else none

def c1wDetail : String → Option LankaDetail :=
  fun _ => some ⟨"H", "C", "2025-06-22T00:00:00"⟩

def c1wNfListing : Nat → List NewsArticle :=
  fun p => if p = 1 then
      [⟨"nid-w", "News First", "h", "c", "2025-06-03 8:11", "https://sinhala.newsfirst.lk/x"⟩]
    else []

/-- C1, witness for the amended theorem at concrete inputs (the
well-formedness hypothesis discharged by evaluation). -/
theorem c1_witness :
    (∀ c ∈ lanka_dedup (lanka_gather c1wLankaListing 0 1).2 [],
      lanka_detail_ok c1wDetail c = true) ∧
    ((hiru_scrape_category (fun s => s) ⟨2025, 7, 2, 0, 0, 0⟩ c1wHiruListing
        (fun _ => true) 3
        (hiru_scrape_category (fun s => s) ⟨2025, 7, 1, 0, 0, 0⟩ c1wHiruListing
          (fun _ => true) 3 [] []).core.existing
        (hiru_scrape_category (fun s => s) ⟨2025, 7, 1, 0, 0, 0⟩ c1wHiruListing
          (fun _ => true) 3 [] []).core.files).core.total = 0 ∧
      (hiru_scrape_category (fun s => s) ⟨2025, 7, 2, 0, 0, 0⟩ c1wHiruListing
        (fun _ => true) 3
        (hiru_scrape_category (fun s => s) ⟨2025, 7, 1, 0, 0, 0⟩ c1wHiruListing
          (fun _ => true) 3 [] []).core.existing
        (hiru_scrape_category (fun s => s) ⟨2025, 7, 1, 0, 0, 0⟩ c1wHiruListing
          (fun _ => true) 3 [] []).core.files).core.files
        = (hiru_scrape_category (fun s => s) ⟨2025, 7, 1, 0, 0, 0⟩ c1wHiruListing
            (fun _ => true) 3 [] []).core.files ∧
      (lanka_scrape_category (fun s => s) ⟨2025, 7, 2, 0, 0, 0⟩ c1wLankaListing
        c1wDetail "news" 1
        (lanka_scrape_category (fun s => s) ⟨2025, 7, 1, 0, 0, 0⟩ c1wLankaListing
          c1wDetail "news" 1 [] []).core.existing
        (lanka_scrape_category (fun s => s) ⟨2025, 7, 1, 0, 0, 0⟩ c1wLankaListing
          c1wDetail "news" 1 [] []).core.files).core.newCount = 0 ∧
      (lanka_scrape_category (fun s => s) ⟨2025, 7, 2, 0, 0, 0⟩ c1wLankaListing
        c1wDetail "news" 1
        (lanka_scrape_category (fun s => s) ⟨2025, 7, 1, 0, 0, 0⟩ c1wLankaListing
          c1wDetail "news" 1 [] []).core.existing
        (lanka_scrape_category (fun s => s) ⟨2025, 7, 1, 0, 0, 0⟩ c1wLankaListing
          c1wDetail "news" 1 [] []).core.files).core.files
        = (lanka_scrape_category (fun s => s) ⟨2025, 7, 1, 0, 0, 0⟩ c1wLankaListing
            c1wDetail "news" 1 [] []).core.files ∧
      (lanka_scrape_category (fun s => s) ⟨2025, 7, 2, 0, 0, 0⟩ c1wLankaListing
        c1wDetail "news" 1
        (lanka_scrape_category (fun s => s) ⟨2025, 7, 1, 0, 0, 0⟩ c1wLankaListing
          c1wDetail "news" 1 [] []).core.existing
        (lanka_scrape_category (fun s => s) ⟨2025, 7, 1, 0, 0, 0⟩ c1wLankaListing
          c1wDetail "news" 1 [] []).core.files).core.skipped
        = (lanka_scrape_category (fun s => s) ⟨2025, 7, 1, 0, 0, 0⟩ c1wLankaListing
            c1wDetail "news" 1 [] []).candidates.length ∧
      (nf_scrape_single_category ⟨2025, 7, 2, 0, 0, 0⟩ (fun _ => true) c1wNfListing 1
        (nf_scrape_single_category ⟨2025, 7, 1, 0, 0, 0⟩ (fun _ => true) c1wNfListing 1
          none []).seenFile
        (nf_scrape_single_category ⟨2025, 7, 1, 0, 0, 0⟩ (fun _ => true) c1wNfListing 1
          none []).files).newCount = 0 ∧
      (nf_scrape_single_category ⟨2025, 7, 2, 0, 0, 0⟩ (fun _ => true) c1wNfListing 1
        (nf_scrape_single_category ⟨2025, 7, 1, 0, 0, 0⟩ (fun _ => true) c1wNfListing 1
          none []).seenFile
        (nf_scrape_single_category ⟨2025, 7, 1, 0, 0, 0⟩ (fun _ => true) c1wNfListing 1
          none []).files).files
        = (nf_scrape_single_category ⟨2025, 7, 1, 0, 0, 0⟩ (fun _ => true) c1wNfListing 1
            none []).files ∧
      (nf_scrape_single_category ⟨2025, 7, 2, 0, 0, 0⟩ (fun _ => true) c1wNfListing 1
        (nf_scrape_single_category ⟨2025, 7, 1, 0, 0, 0⟩ (fun _ => true) c1wNfListing 1
          none []).seenFile
        (nf_scrape_single_category ⟨2025, 7, 1, 0, 0, 0⟩ (fun _ => true) c1wNfListing 1
          none []).files).skipped = nf_listed_count c1wNfListing 1 1) :=
  ⟨by decide,
    c1_second_run_persists_nothing (fun s => s) ⟨2025, 7, 1, 0, 0, 0⟩
      ⟨2025, 7, 2, 0, 0, 0⟩ c1wHiruListing 3 [] [] c1wLankaListing c1wDetail "news" 1
      [] [] c1wNfListing 1 none [] (by decide)⟩

end NewsScraper
